import Mathlib

set_option maxHeartbeats 1600000

/-
Verification of the LLM gateway layer of the ai-writer repository
(apps/api/ai_writer_api/llm.py) against its natural-language specification.

Python strings are modelled as lists of characters (`Str`); Python dict /
JSON values as the inductive `PyVal`; the HTTP transport as an oracle
mapping each performed POST to a `NetOutcome`; `random.random()` as an
explicit jitter stream.  Every definition is translated from the source
file; line references point into apps/api/ai_writer_api/llm.py.
-/

abbrev Str := List Char

/-- Whitespace characters recognised by Python str.strip with no arguments
(ASCII subset; the code only ever strips ASCII whitespace). -/
def isWsChar (c : Char) : Bool :=
  c == ' ' || c == '\t' || c == '\n' || c == '\r' || c == (Char.ofNat 11) || c == (Char.ofNat 12)

/-- Boolean prefix test, Python str.startswith. -/
def isPrefixB : Str → Str → Bool
  | [], _ => true
  | _ :: _, [] => false
  | a :: p, b :: l => a == b && isPrefixB p l

/-- Boolean suffix test, Python str.endswith. -/
def isSuffixB (p l : Str) : Bool :=
  isPrefixB p.reverse l.reverse

/-- Boolean substring test, Python `in` on strings. -/
def containsB : Str → Str → Bool
  | p, [] => isPrefixB p []
  | p, l@(_ :: t) => isPrefixB p l || containsB p t

/-- Python str.lstrip with a whitespace predicate. -/
def lstripWs (s : Str) : Str :=
  s.dropWhile isWsChar

/-- Python str.rstrip with a whitespace predicate. -/
def rstripWs (s : Str) : Str :=
  (s.reverse.dropWhile isWsChar).reverse

/-- Python str.strip() with no arguments. -/
def stripWs (s : Str) : Str :=
  rstripWs (lstripWs s)

/-- Python str.rstrip of the slash character only. -/
def rstripSlash (s : Str) : Str :=
  (s.reverse.dropWhile (fun c => c == '/')).reverse

/-- Python str.lstrip of the slash character only. -/
def lstripSlash (s : Str) : Str :=
  s.dropWhile (fun c => c == '/')

/-- Python str.lower, character by character (ASCII behaviour suffices for
every string the code lowercases). -/
def lowerB (s : Str) : Str :=
  s.map Char.toLower

/-- Fuel-driven digit accumulator for decimal rendering. -/
def natDecAux : Nat → Nat → Str
  | 0, _ => []
  | fuel + 1, n =>
    if n < 10 then [Char.ofNat (48 + n)]
    else natDecAux fuel (n / 10) ++ [Char.ofNat (48 + n % 10)]

/-- Decimal rendering of a natural number, used for HTTP status codes. -/
def natDec (n : Nat) : Str :=
  natDecAux (n + 1) n

/-! ## Python value model and string constants -/

/-- Shorthand for building character lists from string literals. -/
def lit (s : String) : Str := s.data

/-- Python values as they occur in the settings blob and in decoded JSON
response bodies (llm.py works uniformly on both). -/
inductive PyVal where
  | pnone
  | pbool (b : Bool)
  | pint (n : Int)
  | pfloat (q : ℚ)
  | pstr (s : Str)
  | plist (xs : List PyVal)
  | pdict (kvs : List (Str × PyVal))

/-- Python dict.get with default None, on an association list. -/
def dictGet : List (Str × PyVal) → Str → PyVal
  | [], _ => .pnone
  | (k, v) :: rest, key => if k == key then v else dictGet rest key

/-- Coercion pattern `x if isinstance(x, dict) else {}` used throughout llm.py. -/
def asDict : PyVal → List (Str × PyVal)
  | .pdict kvs => kvs
  | _ => []

/-- Python truthiness of a value. -/
def pyTruthy : PyVal → Bool
  | .pnone => false
  | .pbool b => b
  | .pint n => n != 0
  | .pfloat q => q != 0
  | .pstr s => !s.isEmpty
  | .plist xs => !xs.isEmpty
  | .pdict kvs => !kvs.isEmpty

/-- Python `a or b` on values. -/
def pyOr (a b : PyVal) : PyVal := if pyTruthy a then a else b

/-- Lift of an optional string (dataclass field of type `str | None`) to a value. -/
def optToPy : Option Str → PyVal
  | Option.none => .pnone
  | some s => .pstr s

/-- Decimal rendering of an integer. -/
def intDec (n : Int) : Str :=
  if n < 0 then '-' :: natDec n.natAbs else natDec n.natAbs

/-- Python str() applied to a value.  String inputs pass through unchanged;
every code path a claim exercises applies it to strings only, and the
renderings of floats / containers (whose exact Python repr is irrelevant to
control flow) are simplified placeholders. -/
def pyStrFn : PyVal → Str
  | .pstr s => s
  | .pnone => lit ("None")
  | .pbool true => lit ("True")
  | .pbool false => lit ("False")
  | .pint n => intDec n
  | .pfloat q => intDec q.num ++ lit ("/") ++ natDec q.den
  | .plist _ => lit ("<list>")
  | .pdict _ => lit ("<dict>")

/-- Value of a list of decimal digit characters. -/
def digitsNat (s : Str) : Nat := s.foldl (fun a c => a * 10 + (c.toNat - 48)) 0

/-- Nonempty all-digit check. -/
def allDigits (s : Str) : Bool := !s.isEmpty && s.all Char.isDigit

/-- Python float(str) on plain decimal literals (sign, digits, optional
fractional part); anything else fails.  Exotic accepted spellings
(exponents, inf/nan) are modelled as failures, which no claim exercises. -/
def parseFloatQ (s0 : Str) : Except Unit ℚ :=
  let s1 := stripWs s0
  let sgn : ℚ × Str :=
    match s1 with
    | '-' :: r => (-1, r)
    | '+' :: r => (1, r)
    | r => (1, r)
  match (sgn.2).splitOn '.' with
  | [a] => if allDigits a then .ok (sgn.1 * (digitsNat a : ℚ)) else .error ()
  | [a, b] =>
    if (allDigits a || a.isEmpty) && (allDigits b || b.isEmpty) && !(a.isEmpty && b.isEmpty) then
      .ok (sgn.1 * ((digitsNat a : ℚ) + (digitsNat b : ℚ) / (10 : ℚ) ^ b.length))
    else .error ()
  | _ => .error ()

/-- Python int(str): optional sign plus digits only. -/
def parseIntZ (s0 : Str) : Except Unit Int :=
  let s1 := stripWs s0
  match s1 with
  | '-' :: r => if allDigits r then .ok (-(digitsNat r : Int)) else .error ()
  | '+' :: r => if allDigits r then .ok (digitsNat r : Int) else .error ()
  | r => if allDigits r then .ok (digitsNat r : Int) else .error ()

/-- Python float(x): numbers and numeric strings coerce, everything else
raises (modelled as Except.error). -/
def pyFloatE : PyVal → Except Unit ℚ
  | .pfloat q => .ok q
  | .pint n => .ok (n : ℚ)
  | .pbool b => .ok (if b then 1 else 0)
  | .pstr s => parseFloatQ s
  | _ => .error ()

/-- Python int(x): ints, bools, floats (truncation toward zero) and integer
strings coerce, everything else raises. -/
def pyIntE : PyVal → Except Unit Int
  | .pint n => .ok n
  | .pbool b => .ok (if b then 1 else 0)
  | .pfloat q => .ok (if q < 0 then -(Int.floor (-q)) else Int.floor q)
  | .pstr s => parseIntZ s
  | _ => .error ()

/-! ## LLMConfig and the Config Resolver (llm.py lines 78-224) -/

/-- Provider literal type, llm.py line 15. -/
inductive ProviderT where
  | openai
  | gemini
  deriving DecidableEq, Repr

/-- Wire API literal type, llm.py line 16. -/
inductive WireAPIT where
  | chat
  | responsesW
  deriving DecidableEq, Repr

/-- Secrets dataclass (secrets.py lines 11-17); only the fields
resolve_llm_config reads. -/
structure Secrets where
  openai_api_key : Option Str := Option.none
  openai_base_url : Option Str := Option.none
  openai_model : Option Str := Option.none
  gemini_api_key : Option Str := Option.none
  gemini_model : Option Str := Option.none
  gemini_base_url : Option Str := Option.none
  deriving DecidableEq, Repr

/-- LLMConfig dataclass, llm.py lines 78-86. -/
structure LLMConfig where
  provider : ProviderT
  model : Str
  base_url : Option Str := Option.none
  api_key : Option Str := Option.none
  temperature : ℚ := 7/10
  max_tokens : Int := 800
  wire_api : WireAPIT := .chat
  deriving DecidableEq, Repr

/-- Drop the first and last character, Python s[1:-1]. -/
def dropEnds (s : Str) : Str := (s.drop 1).dropLast

/-- Quote-wrapping test shared by _normalize_base_url and the model-name
handling in resolve_llm_config. -/
def isQuoteWrapped (u : Str) : Bool :=
  2 ≤ u.length &&
    ((u.headD ' ' == '"' && u.getLastD ' ' == '"') ||
     (u.headD ' ' == '\'' && u.getLastD ' ' == '\''))

/-- llm.py _normalize_base_url (lines 104-110). -/
def normalize_base_url (url : Str) : Str :=
  let u := rstripSlash (stripWs url)
  let u := if isQuoteWrapped u then rstripSlash (stripWs (dropEnds u)) else u
  if !u.isEmpty && !(isPrefixB (lit ("http://")) u) && !(isPrefixB (lit ("https://")) u) then
    lit ("https://") ++ lstripSlash u
  else u

/-- llm.py _OPENAI_ENDPOINT_SUFFIXES (lines 113-118). -/
def openaiEndpointSuffixes : List Str :=
  [lit ("/v1/chat/completions"), lit ("/chat/completions"), lit ("/v1/responses"), lit ("/responses")]

/-- Suffix-stripping loop of _strip_openai_endpoint_suffix: first matching
suffix is removed, then trailing slashes are trimmed. -/
def stripSfxGo : List Str → Str → Str
  | [], u => u
  | suf :: rest, u =>
    if isSuffixB suf u then rstripSlash (u.take (u.length - suf.length))
    else stripSfxGo rest u

/-- llm.py _strip_openai_endpoint_suffix (lines 121-136). -/
def strip_openai_endpoint_suffix (base_url : Str) : Str :=
  stripSfxGo openaiEndpointSuffixes (rstripSlash (stripWs base_url))

/-- Test for `re.match(r"^gpt\d", low)`. -/
def gptDigitMatch : Str → Bool
  | 'g' :: 'p' :: 't' :: c :: _ => c.isDigit
  | _ => false

/-- llm.py _normalize_openai_model_name (lines 139-163). -/
def normalize_openai_model_name (model : Str) : Str :=
  let m := stripWs model
  let low := lowerB m
  if low == lit ("gpt4o") then lit ("gpt-4o")
  else if low == lit ("gpt4o-mini") then lit ("gpt-4o-mini")
  else if gptDigitMatch low && !(isPrefixB (lit ("gpt-")) low) then lit ("gpt-") ++ m.drop 3
  else m

/-- Model-string cleanup inside resolve_llm_config (lines 195-197 and
213-215): str(), strip, then unwrap a single layer of quotes. -/
def modelCleanup (v : PyVal) : Str :=
  let m := stripWs (pyStrFn v)
  if isQuoteWrapped m then stripWs (dropEnds m) else m

/-- Extraction of the llm subsection (lines 168-170). -/
def llmSection (project_settings : PyVal) : List (Str × PyVal) :=
  match project_settings with
  | .pdict kvs => asDict (dictGet kvs (lit ("llm")))
  | _ => []

/-- Provider resolution (lines 172-174). -/
def providerOf (llm : List (Str × PyVal)) : ProviderT :=
  let pv := pyOr (dictGet llm (lit ("provider"))) (.pstr (lit ("openai")))
  match pv with
  | .pstr s =>
    if s == lit ("openai") then .openai
    else if s == lit ("gemini") then .gemini
    else .openai
  | _ => .openai

/-- Temperature resolution with the try/except fallback (lines 176-180). -/
def temperatureOf (llm : List (Str × PyVal)) : ℚ :=
  match dictGet llm (lit ("temperature")) with
  | .pnone => 7/10
  | v => match pyFloatE v with
    | .ok q => q
    | .error _ => 7/10

/-- max_tokens resolution with the try/except fallback (lines 182-186). -/
def maxTokensOf (llm : List (Str × PyVal)) : Int :=
  match dictGet llm (lit ("max_tokens")) with
  | .pnone => 800
  | v => match pyIntE v with
    | .ok n => n
    | .error _ => 800

/-- llm.py resolve_llm_config (lines 166-224).  Total by construction:
every fallible coercion in the source is wrapped in try/except, modelled
here by the Except-handling in temperatureOf / maxTokensOf. -/
def resolve_llm_config (project_settings : PyVal) (s : Secrets) : LLMConfig :=
  let llm := llmSection project_settings
  let temperature_f := temperatureOf llm
  let max_tokens_i := maxTokensOf llm
  match providerOf llm with
  | .openai =>
    let openai_cfg := asDict (dictGet llm (lit ("openai")))
    let base_url_v := pyOr (dictGet openai_cfg (lit ("base_url")))
      (pyOr (optToPy s.openai_base_url) (.pstr (lit ("https://api.openai.com/v1"))))
    let model_v := pyOr (dictGet openai_cfg (lit ("model")))
      (pyOr (optToPy s.openai_model) (.pstr (lit ("gpt-4o-mini"))))
    let wire_api_raw := pyOr (dictGet openai_cfg (lit ("wire_api")))
      (pyOr (dictGet openai_cfg (lit ("api"))) (.pstr (lit ("chat"))))
    let wire_api_s := lowerB (stripWs (pyStrFn wire_api_raw))
    let wire_api : WireAPIT :=
      if wire_api_s == lit ("responses") || wire_api_s == lit ("response") then .responsesW
      else .chat
    { provider := .openai
      base_url := some (strip_openai_endpoint_suffix (normalize_base_url (pyStrFn base_url_v)))
      model := normalize_openai_model_name (modelCleanup model_v)
      api_key := s.openai_api_key
      temperature := temperature_f
      max_tokens := max_tokens_i
      wire_api := wire_api }
  | .gemini =>
    let gemini_cfg := asDict (dictGet llm (lit ("gemini")))
    let base_url_v := pyOr (dictGet gemini_cfg (lit ("base_url")))
      (pyOr (optToPy s.gemini_base_url) (.pstr (lit ("https://generativelanguage.googleapis.com"))))
    let model_v := pyOr (dictGet gemini_cfg (lit ("model")))
      (pyOr (optToPy s.gemini_model) (.pstr (lit ("gemini-1.5-flash"))))
    { provider := .gemini
      base_url := some (normalize_base_url (pyStrFn base_url_v))
      model := modelCleanup model_v
      api_key := s.gemini_api_key
      temperature := temperature_f
      max_tokens := max_tokens_i
      wire_api := .chat }

/-! ## Heuristics, error classifier and candidate builders (llm.py 30-52, 231-313, 385, 573-589) -/

/-- llm.py _is_google_genai_base (lines 30-34). -/
def is_google_genai_base (base_url : Str) : Bool :=
  !base_url.isEmpty &&
    (containsB (lit ("generativelanguage.googleapis.com")) (lowerB base_url) ||
     containsB (lit ("genai.googleapis.com")) (lowerB base_url))

/-- llm.py _looks_like_model_unavailable (lines 37-48). -/
def looks_like_model_unavailable (msg : Str) : Bool :=
  let m := lowerB (stripWs msg)
  if m.isEmpty then false
  else if containsB (lit ("无可用渠道")) m then true
  else if containsB (lit ("model_not_found")) m || containsB (lit ("模型不存在")) m then true
  else if containsB (lit ("no distributor")) m || containsB (lit ("distributor")) m then true
  else false

/-- llm.py _is_packy_base (lines 51-52). -/
def is_packy_base (base_url : Str) : Bool :=
  !base_url.isEmpty && containsB (lit ("packyapi.com")) (lowerB base_url)

/-- llm.py clip (lines 231-235), with the default max_len = 220 it is
always called with. -/
def clip (s : Str) : Str :=
  let ss := stripWs s
  if ss.length ≤ 220 then ss
  else rstripWs (ss.take 217) ++ lit ("...")

/-- llm.py err_score (lines 261-285). -/
def err_score (msg : Str) : Int :=
  let m := stripWs msg
  if m.isEmpty then -1
  else if isPrefixB (lit ("openai_http_404")) m || isPrefixB (lit ("gemini_http_404")) m then 0
  else if isPrefixB (lit ("openai_non_json_response")) m then 10
  else if isPrefixB (lit ("openai_bad_json")) m then 20
  else if isPrefixB (lit ("openai_bad_response")) m then 25
  else if isPrefixB (lit ("empty_completion")) m then 30
  else if isPrefixB (lit ("openai_timeout")) m || isPrefixB (lit ("openai_network_error")) m then 80
  else if isPrefixB (lit ("openai_http_")) m then 90
  else if isPrefixB (lit ("gemini_timeout")) m || isPrefixB (lit ("gemini_network_error")) m then 80
  else if isPrefixB (lit ("gemini_http_")) m then 90
  else 40

/-- One step of the `if u not in candidates_out: candidates_out.append(u)`
de-duplicating append used by both candidate builders. -/
def dedupAppendOne (acc : List Str) (u : Str) : List Str :=
  if acc.contains u then acc else acc ++ [u]

/-- Inner per-base URL tuple of build_candidates (lines 304-309), including
the `if not bb: continue` guard. -/
def candidateUrlsForBase (path bb : Str) : List Str :=
  if bb.isEmpty then []
  else if isSuffixB (lit ("/v1")) bb then [bb ++ lit ("/") ++ path]
  else [bb ++ lit ("/v1/") ++ path, bb ++ lit ("/") ++ path]

/-- llm.py build_candidates (lines 287-313). -/
def build_candidates (base_in path : Str) : List Str :=
  let b := normalize_base_url base_in
  if is_packy_base b then
    let root := if isSuffixB (lit ("/v1")) b then b.take (b.length - 3) else b
    [root ++ lit ("/v1/") ++ path]
  else
    let bases := if isSuffixB (lit ("/v1")) b then [b, b.take (b.length - 3)] else [b]
    bases.foldl (fun acc bb => (candidateUrlsForBase path bb).foldl dedupAppendOne acc) []

/-- URL enumeration of gemini_generate_v1beta (lines 573-589). -/
def gemini_candidate_urls (base_url model : Str) : List Str :=
  let base := normalize_base_url base_url
  let bases := [base]
      ++ (if isSuffixB (lit ("/v1beta")) base then [base.take (base.length - 7)] else [])
      ++ (if isSuffixB (lit ("/v1")) base then [base.take (base.length - 3)] else [])
  bases.foldl (fun acc bb =>
    if bb.isEmpty then acc
    else
      dedupAppendOne acc
        (if isSuffixB (lit ("/v1beta")) bb then
          bb ++ lit ("/models/") ++ model ++ lit (":generateContent")
        else
          bb ++ lit ("/v1beta/models/") ++ model ++ lit (":generateContent"))) []

/-- llm.py transient_status (line 385). -/
def transient_status : List Nat := [408, 409, 425, 429, 500, 502, 503, 504]

/-! ## Response extractors (llm.py 237-259, 315-383, 651-664) -/

/-- Model of one HTTP response as the executor observes it: status code,
raw content-type header value, the result of resp.json() (None when the
body fails to decode) and of resp.text. -/
structure HttpResp where
  status : Nat
  ctype : Str := []
  body : Option PyVal := Option.none
  bodyText : Option Str := Option.none

/-- llm.py extract_err_detail (lines 237-259). -/
def extract_err_detail (r : HttpResp) : Str :=
  let ctype := lowerB r.ctype
  let jsonDetail : Option Str :=
    if containsB (lit ("application/json")) ctype then
      match r.body with
      | some data =>
        let fromError : Option Str :=
          match data with
          | .pdict kvs =>
            match dictGet kvs (lit ("error")) with
            | .pdict errKvs =>
              match dictGet errKvs (lit ("message")) with
              | .pstr msg => if !(stripWs msg).isEmpty then some (clip msg) else Option.none
              | _ => Option.none
            | _ => Option.none
          | _ => Option.none
        match fromError with
        | some s => some s
        | Option.none =>
          match data with
          | .pdict kvs =>
            match dictGet kvs (lit ("detail")) with
            | .pstr d => if !(stripWs d).isEmpty then some (clip d) else Option.none
            | _ => Option.none
          | _ => Option.none
      | Option.none => Option.none
    else Option.none
  match jsonDetail with
  | some s => s
  | Option.none =>
    if containsB (lit ("text/html")) ctype then lit ("html_error_page")
    else match r.bodyText with
      | some t => clip t
      | Option.none => []

/-- Per-part filter of the chat content-list walk (lines 337-347). -/
def chatContentParts (items : List PyVal) : List Str :=
  items.foldr (fun part acc =>
    match part with
    | .pstr s => if !(stripWs s).isEmpty then s :: acc else acc
    | .pdict kvs =>
      match pyOr (dictGet kvs (lit ("text")))
          (pyOr (dictGet kvs (lit ("content"))) (dictGet kvs (lit ("value")))) with
      | .pstr t => if !(stripWs t).isEmpty then t :: acc else acc
      | _ => acc
    | _ => acc) []

/-- llm.py extract_chat_text (lines 315-355). -/
def extract_chat_text (data : PyVal) : Str :=
  let outShortcut : Option Str :=
    match data with
    | .pdict kvs =>
      match dictGet kvs (lit ("output_text")) with
      | .pstr s => if !(stripWs s).isEmpty then some s else Option.none
      | _ => Option.none
    | _ => Option.none
  match outShortcut with
  | some s => s
  | Option.none =>
    match data with
    | .pdict kvs =>
      match dictGet kvs (lit ("choices")) with
      | .plist (choice0 :: _) =>
        match choice0 with
        | .pdict ckvs =>
          let fromMsg : Option Str :=
            match dictGet ckvs (lit ("message")) with
            | .pdict mkvs =>
              match dictGet mkvs (lit ("content")) with
              | .pstr content => if !(stripWs content).isEmpty then some content else Option.none
              | .plist parts =>
                let joined := (chatContentParts parts).foldl (· ++ ·) []
                if !(stripWs joined).isEmpty then some joined else Option.none
              | _ => Option.none
            | _ => Option.none
          match fromMsg with
          | some s => s
          | Option.none =>
            match dictGet ckvs (lit ("text")) with
            | .pstr txt => if !(stripWs txt).isEmpty then txt else []
            | _ => []
        | _ => []
      | _ => []
    | _ => []

/-- Inner content[].text collection of the responses-API walk (lines 363-377). -/
def respOutputParts (output : List PyVal) : List Str :=
  output.foldr (fun item acc =>
    match item with
    | .pdict ikvs =>
      match dictGet ikvs (lit ("content")) with
      | .plist cs =>
        (cs.foldr (fun c acc2 =>
          match c with
          | .pdict ckvs =>
            match dictGet ckvs (lit ("text")) with
            | .pstr t => if !(stripWs t).isEmpty then t :: acc2 else acc2
            | _ => acc2
          | _ => acc2) []) ++ acc
      | _ => acc
    | _ => acc) []

/-- llm.py extract_responses_text (lines 357-383). -/
def extract_responses_text (data : PyVal) : Str :=
  let direct : Option Str :=
    match data with
    | .pdict kvs =>
      let fromOut : Option Str :=
        match dictGet kvs (lit ("output_text")) with
        | .pstr s => if !(stripWs s).isEmpty then some s else Option.none
        | _ => Option.none
      match fromOut with
      | some s => some s
      | Option.none =>
        match dictGet kvs (lit ("output")) with
        | .plist output =>
          let joined := (respOutputParts output).foldl (· ++ ·) []
          if !(stripWs joined).isEmpty then some joined else Option.none
        | _ => Option.none
    | _ => Option.none
  match direct with
  | some s => s
  | Option.none => extract_chat_text data

/-- Association-list lookup distinguishing a missing key from a stored
None, for dict.get with a non-None default. -/
def dictFind : List (Str × PyVal) → Str → Option PyVal
  | [], _ => Option.none
  | (k, v) :: rest, key => if k == key then some v else dictFind rest key

/-- Python `"".join(p.get("text", "") if isinstance(p, dict) else "" for p
in parts)` (lines 660-663): returns none when join raises TypeError on a
non-string element. -/
def geminiJoinParts : List PyVal → Option Str
  | [] => some []
  | p :: rest =>
    let piece : Option Str :=
      match p with
      | .pdict kvs =>
        match (dictFind kvs (lit ("text"))).getD (.pstr []) with
        | .pstr s => some s
        | _ => Option.none
      | _ => some []
    match piece with
    | some s =>
      match geminiJoinParts rest with
      | some t => some (s ++ t)
      | Option.none => Option.none
    | Option.none => Option.none

/-- Inline Gemini candidates/parts extraction of gemini_generate_v1beta
(lines 651-666); Except.error carries the LLMError tag raised when the
join encounters a non-string part. -/
def gemini_extract_text (data : PyVal) : Except Str Str :=
  match data with
  | .pdict kvs =>
    match dictGet kvs (lit ("candidates")) with
    | .plist (cand0 :: _) =>
      match cand0 with
      | .pdict ckvs =>
        match dictGet ckvs (lit ("content")) with
        | .pdict contentKvs =>
          match dictGet contentKvs (lit ("parts")) with
          | .plist (p :: ps) =>
            match geminiJoinParts (p :: ps) with
            | some t => .ok t
            | Option.none => .error (lit ("gemini_bad_response:TypeError"))
          | _ => .ok []
        | _ => .ok []
      | _ => .ok []
    | _ => .ok []
  | _ => .ok []

/-! ## Request executors (llm.py 389-484 and 569-684)

The HTTP transport is abstracted by an oracle `env : Nat → Nat → NetOutcome`
giving the outcome of the POST performed in attempt `a` (1-based) at
candidate index `i` (0-based); `jit : Nat → ℚ` models the random.random()
draw used for the backoff jitter of attempt `a`.  The per-call throttle
gate sleeps (lines 55-75) do not influence control flow and are not part
of the executor trace, which records only the backoff sleeps. -/

/-- Outcome of one POST as the executor observes it. -/
inductive NetOutcome where
  | timeout
  | netError (ename : Str)
  | resp (r : HttpResp)

/-- Action the executor takes for one candidate: return the text, raise
immediately, or record a failure and continue with the next candidate. -/
inductive CandAct where
  | success (text : Str)
  | fatal (msg : Str)
  | record (msg : Str) (transient : Bool)
  deriving DecidableEq

/-- Tag `{pfx}{status}[:detail]` built at llm.py lines 435-438 / 628-631. -/
def httpErrMsg (pfx : Str) (r : HttpResp) : Str :=
  let detail := extract_err_detail r
  let msg := pfx ++ natDec r.status
  if detail.isEmpty then msg else msg ++ lit (":") ++ detail

/-- Candidate handling of openai_compatible_request (lines 414-476).  The
parser argument models the wrapped `parser(data)` call: Except.error is the
caught exception name (the modelled extractors are total, matching the
source extractors which cannot raise on decoded JSON). -/
def openaiCandAct (fastFail : Bool) (parser : PyVal → Except Str Str) (o : NetOutcome) : CandAct :=
  match o with
  | .timeout => .record (lit ("openai_timeout")) true
  | .netError e => .record (lit ("openai_network_error:") ++ e) true
  | .resp r =>
    if r.status == 404 then .record (lit ("openai_http_404")) false
    else if 400 ≤ r.status then
      let msg := httpErrMsg (lit ("openai_http_")) r
      if transient_status.contains r.status then
        if fastFail && looks_like_model_unavailable msg then .fatal msg
        else .record msg true
      else .fatal msg
    else if !containsB (lit ("application/json")) (lowerB r.ctype) then
      .record (lit ("openai_non_json_response")) false
    else
      match r.body with
      | Option.none => .record (lit ("openai_bad_json")) false
      | some data =>
        match parser data with
        | .error ename => .record (lit ("openai_bad_response:") ++ ename) false
        | .ok content =>
          if (stripWs content).isEmpty then .record (lit ("empty_completion")) true
          else .success content

/-- Mutable last_err / best_err pair of openai_compatible_request. -/
structure ErrSt where
  last : Option Str := Option.none
  best : Option Str := Option.none

/-- llm.py record_err (lines 405-409): keep the newest error, and promote
it to best when its score reaches the current best score. -/
def record_err (st : ErrSt) (msg : Str) : ErrSt :=
  { last := some msg
    best :=
      match st.best with
      | Option.none => some msg
      | some b => if err_score b ≤ err_score msg then some msg else some b }

/-- Result of one attempt round over the candidate list. -/
inductive RoundOut where
  | rsuccess (t : Str)
  | rfatal (m : Str)
  | rexhausted

/-- Candidate loop of one attempt of openai_compatible_request (lines
413-476): stops at the first success or fatal error, records everything
else and accumulates the attempt_had_transient flag. -/
def runCandsO (fastFail : Bool) (parser : PyVal → Except Str Str) :
    List NetOutcome → ErrSt → Bool → RoundOut × ErrSt × Bool × List CandAct
  | [], st, ht => (.rexhausted, st, ht, [])
  | o :: rest, st, ht =>
    match openaiCandAct fastFail parser o with
    | .success t => (.rsuccess t, st, ht, [.success t])
    | .fatal m => (.rfatal m, st, ht, [.fatal m])
    | .record m tr =>
      let r := runCandsO fastFail parser rest (record_err st m) (ht || tr)
      (r.1, r.2.1, r.2.2.1, .record m tr :: r.2.2.2)

/-- Trace of one attempt round: attempt number, the action for each POST
actually performed, the attempt_had_transient flag after the round, and
the backoff sleep performed after the round (if any). -/
structure Round where
  idx : Nat
  acts : List CandAct
  hadTransient : Bool
  sleptAfter : Option ℚ
  deriving DecidableEq

/-- Backoff amount of llm.py line 479: 0.8 * 2^(attempt-1) + random()*0.2. -/
def backoffAmt (attempt : Nat) (j : ℚ) : ℚ :=
  4/5 * 2 ^ (attempt - 1) + j * (1/5)

/-- Python `a or b` where a is an optional string (None and "" are falsy). -/
def pyOrStr (a : Option Str) (b : Str) : Str :=
  match a with
  | some s => if s.isEmpty then b else s
  | Option.none => b

/-- Terminal error of openai_compatible_request (line 484):
best_err or last_err or "openai_failed". -/
def ocTerminalErr (st : ErrSt) : Str :=
  pyOrStr st.best (pyOrStr st.last (lit ("openai_failed")))

/-- Attempt loop of openai_compatible_request (lines 411-484), recursing
over the remaining attempt numbers ([1, 2, 3] initially; max_attempts = 3). -/
def ocGo (fastFail : Bool) (parser : PyVal → Except Str Str) (nCands : Nat)
    (env : Nat → Nat → NetOutcome) (jit : Nat → ℚ) :
    List Nat → ErrSt → Except Str Str × List Round
  | [], st => (.error (ocTerminalErr st), [])
  | a :: rest, st =>
    let r := runCandsO fastFail parser ((List.range nCands).map (env a)) st false
    match r.1 with
    | .rsuccess t => (.ok t, [⟨a, r.2.2.2, r.2.2.1, Option.none⟩])
    | .rfatal m => (.error m, [⟨a, r.2.2.2, r.2.2.1, Option.none⟩])
    | .rexhausted =>
      if !rest.isEmpty && r.2.2.1 then
        let cont := ocGo fastFail parser nCands env jit rest r.2.1
        (cont.1, ⟨a, r.2.2.2, r.2.2.1, some (backoffAmt a (jit a))⟩ :: cont.2)
      else (.error (ocTerminalErr r.2.1), [⟨a, r.2.2.2, r.2.2.1, Option.none⟩])

/-- llm.py openai_compatible_request (lines 389-484); the payload does not
influence control flow and is absorbed into the oracle. -/
def openai_compatible_request (base_url path : Str) (parser : PyVal → Except Str Str)
    (fastFail : Bool) (env : Nat → Nat → NetOutcome) (jit : Nat → ℚ) :
    Except Str Str × List Round :=
  ocGo fastFail parser (build_candidates base_url path).length env jit [1, 2, 3] {}

/-- Candidate handling of gemini_generate_v1beta (lines 606-676).  Unlike
the OpenAI executor there is no content-type check, the model-unavailable
fast-fail is unconditional, and a TypeError during part-joining raises. -/
def geminiCandAct (o : NetOutcome) : CandAct :=
  match o with
  | .timeout => .record (lit ("gemini_timeout")) true
  | .netError e => .record (lit ("gemini_network_error:") ++ e) true
  | .resp r =>
    if r.status == 404 then .record (lit ("gemini_http_404")) false
    else if 400 ≤ r.status then
      let msg := httpErrMsg (lit ("gemini_http_")) r
      if transient_status.contains r.status then
        if looks_like_model_unavailable msg then .fatal msg
        else .record msg true
      else .fatal msg
    else
      match r.body with
      | Option.none => .record (lit ("gemini_bad_json")) false
      | some data =>
        match gemini_extract_text data with
        | .error m => .fatal m
        | .ok t =>
          if (stripWs t).isEmpty then .record (lit ("empty_completion")) true
          else .success t

/-- Candidate loop of one attempt of gemini_generate_v1beta: only last_err
is tracked (lines 602, 615-674). -/
def runCandsG : List NetOutcome → Option Str → Bool → RoundOut × Option Str × Bool × List CandAct
  | [], st, ht => (.rexhausted, st, ht, [])
  | o :: rest, st, ht =>
    match geminiCandAct o with
    | .success t => (.rsuccess t, st, ht, [.success t])
    | .fatal m => (.rfatal m, st, ht, [.fatal m])
    | .record m tr =>
      let r := runCandsG rest (some m) (ht || tr)
      (r.1, r.2.1, r.2.2.1, .record m tr :: r.2.2.2)

/-- Attempt loop of gemini_generate_v1beta (lines 604-684). -/
def gemGo (nCands : Nat) (env : Nat → Nat → NetOutcome) (jit : Nat → ℚ) :
    List Nat → Option Str → Except Str Str × List Round
  | [], st => (.error (pyOrStr st (lit ("gemini_failed"))), [])
  | a :: rest, st =>
    let r := runCandsG ((List.range nCands).map (env a)) st false
    match r.1 with
    | .rsuccess t => (.ok t, [⟨a, r.2.2.2, r.2.2.1, Option.none⟩])
    | .rfatal m => (.error m, [⟨a, r.2.2.2, r.2.2.1, Option.none⟩])
    | .rexhausted =>
      if !rest.isEmpty && r.2.2.1 then
        let cont := gemGo nCands env jit rest r.2.1
        (cont.1, ⟨a, r.2.2.2, r.2.2.1, some (backoffAmt a (jit a))⟩ :: cont.2)
      else (.error (pyOrStr r.2.1 (lit ("gemini_failed"))), [⟨a, r.2.2.2, r.2.2.1, Option.none⟩])

/-- llm.py gemini_generate_v1beta (lines 569-684). -/
def gemini_generate_v1beta (base_url model : Str) (env : Nat → Nat → NetOutcome)
    (jit : Nat → ℚ) : Except Str Str × List Round :=
  gemGo (gemini_candidate_urls base_url model).length env jit [1, 2, 3] Option.none

/-! ## Generation facade (llm.py 486-567 and 686-799)

Each executor invocation made by the facade is numbered; the facade-level
oracle `env : Nat → Nat → Nat → NetOutcome` gives invocation k its own
transport oracle `env k`, and likewise `jit k` its jitter stream.  The
trace records, per invocation, which wire shape and model it used. -/

/-- Wire shape of one executor invocation. -/
inductive Wire where
  | chat
  | responsesW
  | geminiNative
  deriving DecidableEq, Repr

/-- One executor invocation in the facade trace. -/
structure Branch where
  wire : Wire
  model : Str
  rounds : List Round
  deriving DecidableEq

instance : Inhabited Branch := ⟨⟨Wire.chat, [], []⟩⟩

/-- Facade-level transport oracle: invocation index, attempt, candidate index. -/
abbrev Env := Nat → Nat → Nat → NetOutcome

/-- Facade-level jitter streams: invocation index, attempt. -/
abbrev Jit := Nat → Nat → ℚ

/-- Python max(errs, key=err_score): the first element of maximal score. -/
def pyMaxByScore : List Str → Str
  | [] => []
  | e :: rest => rest.foldl (fun acc x => if err_score acc < err_score x then x else acc) e

/-- Python next((e for e in errs if e != best), None). -/
def firstNe (best : Str) : List Str → Option Str
  | [] => Option.none
  | e :: rest => if e != best then some e else firstNe best rest

/-- PackyAPI-specific operator hints of openai_compatible_generate
(lines 550-564). -/
def packyHintAugment (base model best : Str) (alt : Option Str) : Str :=
  if containsB (lit ("packyapi.com")) (lowerB base) then
    if containsB (lit ("openai_http_502:html_error_page")) best &&
        (containsB (lit ("openai_http_404")) best ||
         containsB (lit ("openai_http_404")) (alt.getD [])) then
      best ++ lit (" | packyapi_hint=try wire_api=chat and model=gpt-5.1-codex")
    else if containsB (lit ("openai_http_502:html_error_page")) best &&
        [lit ("gpt-5.2"), lit ("gpt-5"), lit ("gpt-5-codex"), lit ("gpt-5.2-codex")].contains
          (lowerB (stripWs model)) then
      best ++ lit (" | packyapi_hint=try model=gpt-5.1-codex")
    else best
  else best

/-- One wire-API attempt inside openai_compatible_generate (lines 517-535). -/
def runKind (base model : Str) (fastFail : Bool) (kind : WireAPIT) (env : Env) (jit : Jit)
    (k : Nat) : Except Str Str × Branch :=
  match kind with
  | .responsesW =>
    let r := openai_compatible_request base (lit ("responses"))
      (fun d => .ok (extract_responses_text d)) fastFail (env k) (jit k)
    (r.1, ⟨.responsesW, model, r.2⟩)
  | .chat =>
    let r := openai_compatible_request base (lit ("chat/completions"))
      (fun d => .ok (extract_chat_text d)) fastFail (env k) (jit k)
    (r.1, ⟨.chat, model, r.2⟩)

/-- Wire-API loop plus error post-processing of openai_compatible_generate
(lines 516-567). -/
def ocgLoop (base model : Str) (fastFail : Bool) (env : Env) (jit : Jit) :
    List WireAPIT → Nat → List Str → List Branch → Except Str Str × List Branch × Nat
  | [], k, errs, brs =>
    match errs with
    | [] => (.error (lit ("openai_failed")), brs, k)
    | _ =>
      let best := pyMaxByScore errs
      let alt := firstNe best errs
      let best2 :=
        match alt with
        | some a => if !a.isEmpty && !containsB a best then best ++ lit (" | alt=") ++ a else best
        | Option.none => best
      (.error (packyHintAugment base model best2 alt), brs, k)
  | kind :: rest, k, errs, brs =>
    let r := runKind base model fastFail kind env jit k
    match r.1 with
    | .ok t => (.ok t, brs ++ [r.2], k + 1)
    | .error e => ocgLoop base model fastFail env jit rest (k + 1) (errs ++ [e]) (brs ++ [r.2])

/-- llm.py openai_compatible_generate (lines 486-567). -/
def openai_compatible_generate (base model : Str) (prefer : WireAPIT)
    (allowResponses fastFail : Bool) (env : Env) (jit : Jit) (k : Nat) :
    Except Str Str × List Branch × Nat :=
  let second : WireAPIT := if prefer == WireAPIT.chat then .responsesW else .chat
  let kinds := if allowResponses then [prefer, second] else [prefer]
  ocgLoop base model fastFail env jit kinds k [] []

/-- llm.py fallback_models (lines 708-719). -/
def fallback_models : List Str :=
  [lit ("gemini-3-pro-preview"), lit ("gemini-3-flash-preview"), lit ("gemini-2.5-flash"),
   lit ("gemini-2.5-pro"), lit ("gemini-3.1-pro-preview"), lit ("gemini-2.0-flash"),
   lit ("gemini-1.5-flash")]

/-- Filtered (and, for PackyAPI, truncated) fallback list (lines 720-725). -/
def fallbacksFor (base model : Str) : List Str :=
  let cur_low := lowerB (stripWs model)
  let fbs := fallback_models.filter (fun m => lowerB (stripWs m) != cur_low)
  if is_packy_base base then fbs.take 4 else fbs

/-- llm.py openai_chat closure (lines 727-741). -/
def openaiChatCall (base model : Str) (env : Env) (jit : Jit) (k : Nat) :
    Except Str Str × List Branch × Nat :=
  openai_compatible_generate base model .chat (!is_packy_base base) (is_packy_base base) env jit k

/-- Test for re.match(r"^openai_http_(429|500|502|503|504)", best). -/
def openaiTransientRe (best : Str) : Bool :=
  isPrefixB (lit ("openai_http_429")) best || isPrefixB (lit ("openai_http_500")) best ||
  isPrefixB (lit ("openai_http_502")) best || isPrefixB (lit ("openai_http_503")) best ||
  isPrefixB (lit ("openai_http_504")) best

/-- Test for re.match(r"^gemini_http_(429|500|502|503|504)", best). -/
def geminiTransientRe (best : Str) : Bool :=
  isPrefixB (lit ("gemini_http_429")) best || isPrefixB (lit ("gemini_http_500")) best ||
  isPrefixB (lit ("gemini_http_502")) best || isPrefixB (lit ("gemini_http_503")) best ||
  isPrefixB (lit ("gemini_http_504")) best

/-- Fallback-model loop of openai_chat_with_fallbacks (lines 753-758). -/
def ocwfLoop (base : Str) (env : Env) (jit : Jit) :
    List Str → Str → Nat → List Branch → Except Str Str × List Branch × Nat
  | [], best, k, brs => (.error best, brs, k)
  | fb :: rest, best, k, brs =>
    let r := openaiChatCall base fb env jit k
    match r.1 with
    | .ok t => (.ok t, brs ++ r.2.1, r.2.2)
    | .error efb =>
      ocwfLoop base env jit rest (if err_score best < err_score efb then efb else best)
        r.2.2 (brs ++ r.2.1)

/-- llm.py openai_chat_with_fallbacks (lines 743-758). -/
def openai_chat_with_fallbacks (base cfgModel : Str) (fallbacks : List Str) (env : Env)
    (jit : Jit) (k : Nat) : Except Str Str × List Branch × Nat :=
  let r := openaiChatCall base cfgModel env jit k
  match r.1 with
  | .ok t => (.ok t, r.2.1, r.2.2)
  | .error e =>
    if looks_like_model_unavailable e || isPrefixB (lit ("empty_completion")) e ||
        openaiTransientRe e then
      ocwfLoop base env jit fallbacks e r.2.2 r.2.1
    else (.error e, r.2.1, r.2.2)

/-- llm.py gemini_v1beta closure (lines 760-761), wrapped as one facade
invocation. -/
def geminiCall (base model : Str) (env : Env) (jit : Jit) (k : Nat) :
    Except Str Str × List Branch × Nat :=
  let r := gemini_generate_v1beta base model (env k) (jit k)
  (r.1, [⟨.geminiNative, model, r.2⟩], k + 1)

/-- Fallback-model loop of gemini_v1beta_with_fallbacks (lines 773-777). -/
def gvwfLoop (base : Str) (env : Env) (jit : Jit) :
    List Str → Str → Nat → List Branch → Except Str Str × List Branch × Nat
  | [], best, k, brs => (.error best, brs, k)
  | fb :: rest, best, k, brs =>
    let r := geminiCall base fb env jit k
    match r.1 with
    | .ok t => (.ok t, brs ++ r.2.1, r.2.2)
    | .error efb =>
      gvwfLoop base env jit rest (if err_score best < err_score efb then efb else best)
        r.2.2 (brs ++ r.2.1)

/-- llm.py gemini_v1beta_with_fallbacks (lines 763-778). -/
def gemini_v1beta_with_fallbacks (base cfgModel : Str) (fallbacks : List Str) (env : Env)
    (jit : Jit) (k : Nat) : Except Str Str × List Branch × Nat :=
  let r := geminiCall base cfgModel env jit k
  match r.1 with
  | .ok t => (.ok t, r.2.1, r.2.2)
  | .error e =>
    if looks_like_model_unavailable e || isPrefixB (lit ("empty_completion")) e ||
        geminiTransientRe e then
      gvwfLoop base env jit fallbacks e r.2.2 r.2.1
    else (.error e, r.2.1, r.2.2)

/-- Result of one generate_text call: the returned text or raised LLMError
tag, plus the trace of executor invocations performed. -/
structure GenResult where
  res : Except Str Str
  branches : List Branch

/-- Tag raised at llm.py line 229. -/
def missingKeyTag (p : ProviderT) : Str :=
  lit ("missing_api_key_for_provider:") ++
    (match p with | .openai => lit ("openai") | .gemini => lit ("gemini"))

/-- Static hint appended at llm.py lines 794-798. -/
def packyGeminiHint : Str :=
  lit (" | packyapi_hint=try gemini-3-pro-preview or gemini-3-flash-preview") ++
  lit (" (and if needed: gemini-2.5-pro / gemini-2.5-flash)")

/-- Primary/secondary cascade for a Gemini config on a non-Google base URL
(lines 780-799). -/
def geminiProxyCascade (base model : Str) (fallbacks : List Str) (preferOpenaiFirst : Bool)
    (env : Env) (jit : Jit) : GenResult :=
  let r1 := if preferOpenaiFirst then openai_chat_with_fallbacks base model fallbacks env jit 0
            else gemini_v1beta_with_fallbacks base model fallbacks env jit 0
  match r1.1 with
  | .ok t => ⟨.ok t, r1.2.1⟩
  | .error e1 =>
    let r2 := if preferOpenaiFirst then gemini_v1beta_with_fallbacks base model fallbacks env jit r1.2.2
              else openai_chat_with_fallbacks base model fallbacks env jit r1.2.2
    match r2.1 with
    | .ok t => ⟨.ok t, r1.2.1 ++ r2.2.1⟩
    | .error e2 =>
      let best := pyMaxByScore [e1, e2]
      let best2 := if preferOpenaiFirst && looks_like_model_unavailable best
        then best ++ packyGeminiHint else best
      ⟨.error best2, r1.2.1 ++ r2.2.1⟩

/-- llm.py generate_text (lines 227-799): the public facade. -/
def generate_text (cfg : LLMConfig) (env : Env) (jit : Jit) : GenResult :=
  if !pyTruthy (optToPy cfg.api_key) then
    ⟨.error (missingKeyTag cfg.provider), []⟩
  else
    match cfg.provider with
    | .openai =>
      let base := pyOrStr cfg.base_url (lit ("https://api.openai.com/v1"))
      let r := openai_compatible_generate base cfg.model cfg.wire_api true false env jit 0
      ⟨r.1, r.2.1⟩
    | .gemini =>
      let base := pyOrStr cfg.base_url (lit ("https://generativelanguage.googleapis.com"))
      if is_google_genai_base base then
        let r := gemini_generate_v1beta base cfg.model (env 0) (jit 0)
        ⟨r.1, [⟨.geminiNative, cfg.model, r.2⟩]⟩
      else
        geminiProxyCascade base cfg.model (fallbacksFor base cfg.model)
          (containsB (lit ("packyapi.com")) (lowerB base)) env jit

/-! ## Concrete fixtures used by witnesses and counterexamples -/

/-- Shorthand building a NetOutcome response. -/
def respOf (st : Nat) (ct : Str) (b : Option PyVal) (bt : Option Str) : NetOutcome :=
  .resp { status := st, ctype := ct, body := b, bodyText := bt }

/-- Fixture: HTTP 404 with a JSON content type and no decodable body. -/
def fx404 : NetOutcome := respOf 404 (lit ("application/json")) Option.none Option.none

/-- Fixture: HTTP 502 with an HTML error page body. -/
def fx502html : NetOutcome :=
  respOf 502 (lit ("text/html")) Option.none (some (lit ("<html>bad gateway</html>")))

/-- Fixture: HTTP 503 whose JSON body carries the PackyAPI-style
"no distributor" message. -/
def fx503nodist : NetOutcome :=
  respOf 503 (lit ("application/json"))
    (some (.pdict [((lit ("error")), .pdict [((lit ("message")), .pstr (lit ("no distributor")))])]))
    Option.none

/-- Fixture: HTTP 200 with a chat-completions body whose content is "Hello". -/
def fxHello : NetOutcome :=
  respOf 200 (lit ("application/json"))
    (some (.pdict [((lit ("choices")),
      .plist [.pdict [((lit ("message")), .pdict [((lit ("content")), .pstr (lit ("Hello")))])]])]))
    Option.none

/-- Fixture: an OpenAI-provider config with an API key present. -/
def cfgOpenaiOk : LLMConfig :=
  { provider := .openai, model := lit ("gpt-4o-mini"),
    base_url := some (lit ("https://host")), api_key := some (lit ("sk-test")) }

/-- Fixture: a Gemini-provider config against a non-Google proxy base URL. -/
def cfgGeminiProxy : LLMConfig :=
  { provider := .gemini, model := lit ("gemini-1.5-flash"),
    base_url := some (lit ("https://proxy.example.com")), api_key := some (lit ("k")) }

/-- Fixture: a Gemini-provider config against the PackyAPI gateway. -/
def cfgGeminiPacky : LLMConfig :=
  { provider := .gemini, model := lit ("gemini-1.5-flash"),
    base_url := some (lit ("https://www.packyapi.com")), api_key := some (lit ("k")) }

/-- Fixture: a Gemini-provider config with no API key. -/
def cfgNoKey : LLMConfig :=
  { provider := .gemini, model := lit ("gemini-1.5-flash"), api_key := Option.none }

/-- Environment that always times out (never actually consulted by the
claims that use it). -/
def envTimeout : Env := fun _ _ _ => .timeout

/-- Environment that always returns the 404 fixture. -/
def env404 : Env := fun _ _ _ => fx404

/-- Jitter stream fixed at zero. -/
def jitZero : Jit := fun _ _ => 0

/-- Gemini-path base URL the facade resolves (llm.py line 700). -/
def geminiBaseOf (cfg : LLMConfig) : Str :=
  pyOrStr cfg.base_url (lit ("https://generativelanguage.googleapis.com"))

/-- Whether a candidate action is a transient-flagged recorded failure. -/
def actTransient : CandAct → Bool
  | .record _ tr => tr
  | _ => false

/-- Failure message carried by a candidate action, if any. -/
def actFailMsg : CandAct → Option Str
  | .fatal m => some m
  | .record m _ => some m
  | .success _ => Option.none

/-- All failure messages observed during one executor run, in traversal
order. -/
def runFailMsgs (rs : List Round) : List Str :=
  rs.flatMap (fun r => r.acts.filterMap actFailMsg)

/-- Status of an HTTP outcome bounded by 999: an HTTP status line carries
exactly three digits, so the transport layer cannot hand the executor a
larger code. -/
def statusLe999 : NetOutcome → Prop
  | .resp r => r.status ≤ 999
  | _ => True

/-- Wire-shape/model schedule of one facade run. -/
def branchCalls (g : GenResult) : List (Wire × Str) :=
  g.branches.map (fun b => (b.wire, b.model))

/-- Executor-level environment for the mixed-failure scenarios: the first
candidate URL answers HTTP 502 with an HTML page, every other candidate
answers HTTP 404. -/
def envMixed : Nat → Nat → NetOutcome := fun _ i => if i == 0 then fx502html else fx404

/-- Facade-level environment whose first executor invocation sees the
PackyAPI-style 503 "no distributor" answer and everything else sees 404. -/
def envNoDistThen404 : Env := fun k _ _ => if k == 0 then fx503nodist else fx404

/-- Facade-level environment that always returns the successful chat
completion fixture. -/
def envHello : Env := fun _ _ _ => fxHello

/-- Executor-level jitter stream fixed at zero. -/
def jitZero1 : Nat → ℚ := fun _ => 0

/-- Executor-level environment answering HTTP 401 (a fatal status) with a
bare JSON content type everywhere. -/
def env401 : Nat → Nat → NetOutcome :=
  fun _ _ => respOf 401 (lit ("application/json")) Option.none Option.none

/-- Settings fixture: openai provider with a given base_url string. -/
def mkOpenaiSettings (baseUrl : Str) : PyVal :=
  .pdict [((lit ("llm")), .pdict
    [((lit ("provider")), .pstr (lit ("openai"))),
     ((lit ("openai")), .pdict [((lit ("base_url")), .pstr baseUrl)])])]

/-- Settings fixture: gemini provider whose base_url is a pasted full
chat-completions endpoint URL. -/
def settingsGeminiSuffix : PyVal :=
  .pdict [((lit ("llm")), .pdict
    [((lit ("provider")), .pstr (lit ("gemini"))),
     ((lit ("gemini")), .pdict
       [((lit ("base_url")), .pstr (lit ("https://host/v1/chat/completions")))])])]

section StrLemmas

theorem isPrefixB_iff (p l : Str) : isPrefixB p l = true ↔ ∃ t, l = p ++ t := by
  induction p generalizing l with
  | nil => simp [isPrefixB]
  | cons a p ih =>
    cases l with
    | nil => simp [isPrefixB]
    | cons b l =>
      simp only [isPrefixB, Bool.and_eq_true, beq_iff_eq, ih, List.cons_append]
      constructor
      · rintro ⟨rfl, t, rfl⟩
        exact ⟨t, rfl⟩
      · rintro ⟨t, h⟩
        injection h with h1 h2
        exact ⟨h1.symm, t, h2⟩

theorem isSuffixB_iff (p l : Str) : isSuffixB p l = true ↔ ∃ t, l = t ++ p := by
  unfold isSuffixB
  rw [isPrefixB_iff]
  constructor
  · rintro ⟨t, h⟩
    refine ⟨t.reverse, ?_⟩
    have := congrArg List.reverse h
    simpa using this
  · rintro ⟨t, rfl⟩
    exact ⟨t.reverse, by simp⟩

theorem containsB_iff (p l : Str) : containsB p l = true ↔ ∃ s t, l = s ++ p ++ t := by
  induction l with
  | nil =>
    simp only [containsB, isPrefixB_iff]
    constructor
    · rintro ⟨t, h⟩
      exact ⟨[], t, by simpa using h⟩
    · rintro ⟨s, t, h⟩
      obtain ⟨rfl, rfl, rfl⟩ : s = [] ∧ p = [] ∧ t = [] := by simpa using h.symm
      exact ⟨[], rfl⟩
  | cons b l ih =>
    simp only [containsB, Bool.or_eq_true, isPrefixB_iff, ih]
    constructor
    · rintro (⟨t, h⟩ | ⟨s, t, rfl⟩)
      · exact ⟨[], t, by simpa using h⟩
      · exact ⟨b :: s, t, by simp⟩
    · rintro ⟨s, t, h⟩
      cases s with
      | nil => exact Or.inl ⟨t, by simpa using h⟩
      | cons c s =>
        right
        injection h with h1 h2
        exact ⟨s, t, h2⟩

theorem containsB_append_of_left {p x : Str} (y : Str) (h : containsB p x = true) :
    containsB p (x ++ y) = true := by
  rw [containsB_iff] at h ⊢
  rcases h with ⟨s, t, rfl⟩
  exact ⟨s, t ++ y, by simp⟩

theorem containsB_append_of_right {p y : Str} (x : Str) (h : containsB p y = true) :
    containsB p (x ++ y) = true := by
  rw [containsB_iff] at h ⊢
  rcases h with ⟨s, t, rfl⟩
  exact ⟨x ++ s, t, by simp⟩

theorem containsB_of_prefixB {p x y : Str} (hp : isPrefixB x y = true)
    (h : containsB p x = true) : containsB p y = true := by
  rw [isPrefixB_iff] at hp
  rcases hp with ⟨t, rfl⟩
  exact containsB_append_of_left t h

/-- Decomposition of a substring occurrence across a concatenation: the
pattern lies entirely in one side or spans the boundary. -/
theorem containsB_append_cases {p x y : Str} (h : containsB p (x ++ y) = true) :
    containsB p x = true ∨ containsB p y = true ∨
      ∃ p1 p2, p = p1 ++ p2 ∧ p1 ≠ [] ∧ p2 ≠ [] ∧
        isSuffixB p1 x = true ∧ isPrefixB p2 y = true := by
  rw [containsB_iff] at h
  rcases h with ⟨s, t, hst⟩
  have hst' : x ++ y = s ++ (p ++ t) := by
    rw [hst, List.append_assoc]
  rcases List.append_eq_append_iff.1 hst' with ⟨k, hk1, hk2⟩ | ⟨k, hk1, hk2⟩
  · -- s = x ++ k, so p sits inside y
    right; left
    rw [containsB_iff]
    exact ⟨k, t, by rw [hk2, List.append_assoc]⟩
  · -- x = s ++ k and p ++ t = k ++ y
    rcases List.append_eq_append_iff.1 hk2.symm with ⟨j, hj1, hj2⟩ | ⟨j, hj1, hj2⟩
    · -- p = k ++ j and y = j ++ t
      cases hk : k with
      | nil =>
        right; left
        rw [containsB_iff]
        refine ⟨[], t, ?_⟩
        subst hk
        simp only [List.nil_append] at hj1
        rw [hj2, ← hj1]
        simp
      | cons c kk =>
        cases hj : j with
        | nil =>
          left
          rw [containsB_iff]
          subst hj
          simp only [List.append_nil] at hj1
          exact ⟨s, [], by rw [hk1, ← hj1]; simp⟩
        | cons d jj =>
          right; right
          refine ⟨k, j, hj1, ?_, ?_, ?_, ?_⟩
          · rw [hk]; simp
          · rw [hj]; simp
          · rw [isSuffixB_iff]; exact ⟨s, hk1⟩
          · rw [isPrefixB_iff]; exact ⟨t, hj2⟩
    · -- k = p ++ j : p sits inside x
      left
      rw [containsB_iff]
      exact ⟨s, j, by rw [hk1, hj1, List.append_assoc]⟩

end StrLemmas

/-! ## C3: missing API key -/

/-- C3: for every config whose api_key is absent (None or empty),
generate_text fails immediately with the tag
missing_api_key_for_provider:<provider> and performs zero executor
invocations (hence zero network calls) before raising. -/
theorem generate_text_missing_api_key (cfg : LLMConfig) (env : Env) (jit : Jit)
    (h : cfg.api_key = Option.none ∨ cfg.api_key = some []) :
    (generate_text cfg env jit).res =
      .error (lit ("missing_api_key_for_provider:") ++
        (match cfg.provider with | .openai => lit ("openai") | .gemini => lit ("gemini"))) ∧
    (generate_text cfg env jit).branches = [] := by
  have hfalse : pyTruthy (optToPy cfg.api_key) = false := by
    rcases h with h | h <;> simp [h, optToPy, pyTruthy]
  constructor <;> simp [generate_text, hfalse, missingKeyTag]

/-- Witness for C3 at a concrete config with api_key = None. -/
theorem generate_text_missing_api_key_witness :
    (generate_text cfgNoKey envTimeout jitZero).res =
      .error (lit ("missing_api_key_for_provider:") ++ lit ("gemini")) ∧
    (generate_text cfgNoKey envTimeout jitZero).branches = [] :=
  generate_text_missing_api_key cfgNoKey envTimeout jitZero (Or.inl rfl)

/-! ## C9: resolver totality and coercion defaults -/

/-- C9: resolve_llm_config is total over its whole input domain — it is a
plain Lean function on arbitrary PyVal settings and Secrets, with every
fallible coercion of the source handled internally (see temperatureOf /
maxTokensOf) — and when the temperature or max_tokens entry of the llm
section is present (not None) but fails numeric coercion, the resolved
config carries the documented defaults 0.7 and 800. -/
theorem resolve_llm_config_coercion_defaults (settings : PyVal) (s : Secrets) :
    (dictGet (llmSection settings) (lit ("temperature")) ≠ .pnone →
      pyFloatE (dictGet (llmSection settings) (lit ("temperature"))) = .error () →
      (resolve_llm_config settings s).temperature = 7/10) ∧
    (dictGet (llmSection settings) (lit ("max_tokens")) ≠ .pnone →
      pyIntE (dictGet (llmSection settings) (lit ("max_tokens"))) = .error () →
      (resolve_llm_config settings s).max_tokens = 800) := by
  have htemp : ∀ h1 : dictGet (llmSection settings) (lit ("temperature")) ≠ .pnone,
      pyFloatE (dictGet (llmSection settings) (lit ("temperature"))) = .error () →
      temperatureOf (llmSection settings) = 7/10 := by
    intro h1 h2
    unfold temperatureOf
    cases hv : dictGet (llmSection settings) (lit ("temperature")) with
    | pnone => exact absurd hv h1
    | pbool b => rw [hv] at h2; simp [h2]
    | pint n => rw [hv] at h2; simp [h2]
    | pfloat q => rw [hv] at h2; simp [h2]
    | pstr s2 => rw [hv] at h2; simp [h2]
    | plist xs => rw [hv] at h2; simp [h2]
    | pdict kvs => rw [hv] at h2; simp [h2]
  have hmax : ∀ h1 : dictGet (llmSection settings) (lit ("max_tokens")) ≠ .pnone,
      pyIntE (dictGet (llmSection settings) (lit ("max_tokens"))) = .error () →
      maxTokensOf (llmSection settings) = 800 := by
    intro h1 h2
    unfold maxTokensOf
    cases hv : dictGet (llmSection settings) (lit ("max_tokens")) with
    | pnone => exact absurd hv h1
    | pbool b => rw [hv] at h2; simp [h2]
    | pint n => rw [hv] at h2; simp [h2]
    | pfloat q => rw [hv] at h2; simp [h2]
    | pstr s2 => rw [hv] at h2; simp [h2]
    | plist xs => rw [hv] at h2; simp [h2]
    | pdict kvs => rw [hv] at h2; simp [h2]
  have hT : (resolve_llm_config settings s).temperature = temperatureOf (llmSection settings) := by
    unfold resolve_llm_config
    cases hp : providerOf (llmSection settings) <;> simp [hp]
  have hM : (resolve_llm_config settings s).max_tokens = maxTokensOf (llmSection settings) := by
    unfold resolve_llm_config
    cases hp : providerOf (llmSection settings) <;> simp [hp]
  constructor
  · intro h1 h2
    rw [hT, htemp h1 h2]
  · intro h1 h2
    rw [hM, hmax h1 h2]

/-- Fixture settings whose temperature and max_tokens are non-numeric
strings. -/
def settingsBadNums : PyVal :=
  .pdict [((lit ("llm")), .pdict
    [((lit ("temperature")), .pstr (lit ("abc"))), ((lit ("max_tokens")), .pstr (lit ("12x")))])]

/-- Witness for C9 at concrete non-coercible settings values. -/
theorem resolve_llm_config_coercion_defaults_witness :
    (resolve_llm_config settingsBadNums {}).temperature = 7/10 ∧
    (resolve_llm_config settingsBadNums {}).max_tokens = 800 :=
  ⟨(resolve_llm_config_coercion_defaults settingsBadNums {}).1 (fun h => PyVal.noConfusion h) rfl,
   (resolve_llm_config_coercion_defaults settingsBadNums {}).2 (fun h => PyVal.noConfusion h) rfl⟩

/-! ## C10: fallback-cascade model invariants -/

theorem runKind_branch_model (base model : Str) (ff : Bool) (kind : WireAPIT) (env : Env)
    (jit : Jit) (k : Nat) : (runKind base model ff kind env jit k).2.model = model := by
  cases kind <;> rfl

theorem ocgLoop_branches_model (base model : Str) (ff : Bool) (env : Env) (jit : Jit) :
    ∀ (kinds : List WireAPIT) (k : Nat) (errs : List Str) (brs : List Branch) (b : Branch),
      b ∈ (ocgLoop base model ff env jit kinds k errs brs).2.1 → b ∈ brs ∨ b.model = model := by
  intro kinds
  induction kinds with
  | nil =>
    intro k errs brs b hb
    cases errs <;> simp only [ocgLoop] at hb <;> exact Or.inl hb
  | cons kind rest ih =>
    intro k errs brs b hb
    simp only [ocgLoop] at hb
    cases hr : (runKind base model ff kind env jit k).1 with
    | ok t =>
      rw [hr] at hb
      simp only [List.mem_append, List.mem_singleton] at hb
      rcases hb with hb | rfl
      · exact Or.inl hb
      · exact Or.inr (runKind_branch_model base model ff kind env jit k)
    | error e =>
      rw [hr] at hb
      rcases ih (k + 1) (errs ++ [e]) (brs ++ [(runKind base model ff kind env jit k).2]) b hb with hb2 | hb2
      · simp only [List.mem_append, List.mem_singleton] at hb2
        rcases hb2 with hb2 | rfl
        · exact Or.inl hb2
        · exact Or.inr (runKind_branch_model base model ff kind env jit k)
      · exact Or.inr hb2

theorem openai_compatible_generate_branches_model (base model : Str) (prefer : WireAPIT)
    (ar ff : Bool) (env : Env) (jit : Jit) (k : Nat) (b : Branch)
    (hb : b ∈ (openai_compatible_generate base model prefer ar ff env jit k).2.1) :
    b.model = model := by
  unfold openai_compatible_generate at hb
  rcases ocgLoop_branches_model base model ff env jit _ k [] [] b hb with h | h
  · simp at h
  · exact h

theorem openaiChatCall_branches_model (base model : Str) (env : Env) (jit : Jit) (k : Nat)
    (b : Branch) (hb : b ∈ (openaiChatCall base model env jit k).2.1) : b.model = model :=
  openai_compatible_generate_branches_model base model .chat _ _ env jit k b hb

theorem geminiCall_branches_model (base model : Str) (env : Env) (jit : Jit) (k : Nat)
    (b : Branch) (hb : b ∈ (geminiCall base model env jit k).2.1) : b.model = model := by
  simp only [geminiCall, List.mem_singleton] at hb
  rw [hb]

set_option maxHeartbeats 1000000 in
theorem ocwfLoop_branches_model (base : Str) (env : Env) (jit : Jit) :
    ∀ (fbs : List Str) (best : Str) (k : Nat) (brs : List Branch) (b : Branch),
      b ∈ (ocwfLoop base env jit fbs best k brs).2.1 → b ∈ brs ∨ b.model ∈ fbs := by
  intro fbs
  induction fbs with
  | nil =>
    intro best k brs b hb
    simp only [ocwfLoop] at hb
    exact Or.inl hb
  | cons fb rest ih =>
    intro best k brs b hb
    simp only [ocwfLoop] at hb
    cases hr : (openaiChatCall base fb env jit k).1 with
    | ok t =>
      simp only [hr] at hb
      rcases List.mem_append.1 hb with hb | hb
      · exact Or.inl hb
      · refine Or.inr ?_
        rw [openaiChatCall_branches_model base fb env jit k b hb]
        exact List.mem_cons_self fb rest
    | error efb =>
      simp only [hr] at hb
      rcases ih (if err_score best < err_score efb then efb else best)
          (openaiChatCall base fb env jit k).2.2
          (brs ++ (openaiChatCall base fb env jit k).2.1) b hb with hb2 | hb2
      · rcases List.mem_append.1 hb2 with hb3 | hb3
        · exact Or.inl hb3
        · refine Or.inr ?_
          rw [openaiChatCall_branches_model base fb env jit k b hb3]
          exact List.mem_cons_self fb rest
      · exact Or.inr (List.mem_cons_of_mem fb hb2)

set_option maxHeartbeats 1000000 in
theorem gvwfLoop_branches_model (base : Str) (env : Env) (jit : Jit) :
    ∀ (fbs : List Str) (best : Str) (k : Nat) (brs : List Branch) (b : Branch),
      b ∈ (gvwfLoop base env jit fbs best k brs).2.1 → b ∈ brs ∨ b.model ∈ fbs := by
  intro fbs
  induction fbs with
  | nil =>
    intro best k brs b hb
    simp only [gvwfLoop] at hb
    exact Or.inl hb
  | cons fb rest ih =>
    intro best k brs b hb
    simp only [gvwfLoop] at hb
    cases hr : (geminiCall base fb env jit k).1 with
    | ok t =>
      simp only [hr] at hb
      rcases List.mem_append.1 hb with hb | hb
      · exact Or.inl hb
      · refine Or.inr ?_
        rw [geminiCall_branches_model base fb env jit k b hb]
        exact List.mem_cons_self fb rest
    | error efb =>
      simp only [hr] at hb
      rcases ih (if err_score best < err_score efb then efb else best)
          (geminiCall base fb env jit k).2.2
          (brs ++ (geminiCall base fb env jit k).2.1) b hb with hb2 | hb2
      · rcases List.mem_append.1 hb2 with hb3 | hb3
        · exact Or.inl hb3
        · refine Or.inr ?_
          rw [geminiCall_branches_model base fb env jit k b hb3]
          exact List.mem_cons_self fb rest
      · exact Or.inr (List.mem_cons_of_mem fb hb2)

set_option maxHeartbeats 1000000 in
theorem openai_chat_with_fallbacks_branches_model (base cfgModel : Str) (fallbacks : List Str)
    (env : Env) (jit : Jit) (k : Nat) (b : Branch)
    (hb : b ∈ (openai_chat_with_fallbacks base cfgModel fallbacks env jit k).2.1) :
    b.model = cfgModel ∨ b.model ∈ fallbacks := by
  simp only [openai_chat_with_fallbacks] at hb
  cases hr : (openaiChatCall base cfgModel env jit k).1 with
  | ok t =>
    simp only [hr] at hb
    exact Or.inl (openaiChatCall_branches_model base cfgModel env jit k b hb)
  | error e =>
    simp only [hr] at hb
    by_cases hc : (looks_like_model_unavailable e || isPrefixB (lit ("empty_completion")) e ||
        openaiTransientRe e) = true
    · rw [if_pos hc] at hb
      rcases ocwfLoop_branches_model base env jit fallbacks e
          (openaiChatCall base cfgModel env jit k).2.2
          (openaiChatCall base cfgModel env jit k).2.1 b hb with h | h
      · exact Or.inl (openaiChatCall_branches_model base cfgModel env jit k b h)
      · exact Or.inr h
    · rw [if_neg hc] at hb
      exact Or.inl (openaiChatCall_branches_model base cfgModel env jit k b hb)

set_option maxHeartbeats 1000000 in
theorem gemini_v1beta_with_fallbacks_branches_model (base cfgModel : Str) (fallbacks : List Str)
    (env : Env) (jit : Jit) (k : Nat) (b : Branch)
    (hb : b ∈ (gemini_v1beta_with_fallbacks base cfgModel fallbacks env jit k).2.1) :
    b.model = cfgModel ∨ b.model ∈ fallbacks := by
  simp only [gemini_v1beta_with_fallbacks] at hb
  cases hr : (geminiCall base cfgModel env jit k).1 with
  | ok t =>
    simp only [hr] at hb
    exact Or.inl (geminiCall_branches_model base cfgModel env jit k b hb)
  | error e =>
    simp only [hr] at hb
    by_cases hc : (looks_like_model_unavailable e || isPrefixB (lit ("empty_completion")) e ||
        geminiTransientRe e) = true
    · rw [if_pos hc] at hb
      rcases gvwfLoop_branches_model base env jit fallbacks e
          (geminiCall base cfgModel env jit k).2.2
          (geminiCall base cfgModel env jit k).2.1 b hb with h | h
      · exact Or.inl (geminiCall_branches_model base cfgModel env jit k b h)
      · exact Or.inr h
    · rw [if_neg hc] at hb
      exact Or.inl (geminiCall_branches_model base cfgModel env jit k b hb)

set_option maxHeartbeats 1000000 in
theorem geminiProxyCascade_branches_model (base model : Str) (fallbacks : List Str)
    (pref : Bool) (env : Env) (jit : Jit) (b : Branch)
    (hb : b ∈ (geminiProxyCascade base model fallbacks pref env jit).branches) :
    b.model = model ∨ b.model ∈ fallbacks := by
  simp only [geminiProxyCascade] at hb
  cases pref with
  | true =>
    simp only [reduceIte] at hb
    cases hr1 : (openai_chat_with_fallbacks base model fallbacks env jit 0).1 with
    | ok t =>
      simp only [hr1] at hb
      exact openai_chat_with_fallbacks_branches_model base model fallbacks env jit 0 b hb
    | error e1 =>
      simp only [hr1] at hb
      cases hr2 : (gemini_v1beta_with_fallbacks base model fallbacks env jit
          (openai_chat_with_fallbacks base model fallbacks env jit 0).2.2).1 with
      | ok t =>
        simp only [hr2] at hb
        rcases List.mem_append.1 hb with hb | hb
        · exact openai_chat_with_fallbacks_branches_model base model fallbacks env jit 0 b hb
        · exact gemini_v1beta_with_fallbacks_branches_model base model fallbacks env jit _ b hb
      | error e2 =>
        simp only [hr2] at hb
        rcases List.mem_append.1 hb with hb | hb
        · exact openai_chat_with_fallbacks_branches_model base model fallbacks env jit 0 b hb
        · exact gemini_v1beta_with_fallbacks_branches_model base model fallbacks env jit _ b hb
  | false =>
    simp only [Bool.false_eq_true, if_false] at hb
    cases hr1 : (gemini_v1beta_with_fallbacks base model fallbacks env jit 0).1 with
    | ok t =>
      simp only [hr1] at hb
      exact gemini_v1beta_with_fallbacks_branches_model base model fallbacks env jit 0 b hb
    | error e1 =>
      simp only [hr1] at hb
      cases hr2 : (openai_chat_with_fallbacks base model fallbacks env jit
          (gemini_v1beta_with_fallbacks base model fallbacks env jit 0).2.2).1 with
      | ok t =>
        simp only [hr2] at hb
        rcases List.mem_append.1 hb with hb | hb
        · exact gemini_v1beta_with_fallbacks_branches_model base model fallbacks env jit 0 b hb
        · exact openai_chat_with_fallbacks_branches_model base model fallbacks env jit _ b hb
      | error e2 =>
        simp only [hr2] at hb
        rcases List.mem_append.1 hb with hb | hb
        · exact gemini_v1beta_with_fallbacks_branches_model base model fallbacks env jit 0 b hb
        · exact openai_chat_with_fallbacks_branches_model base model fallbacks env jit _ b hb

theorem generate_text_branches_model (cfg : LLMConfig) (env : Env) (jit : Jit) (b : Branch)
    (hb : b ∈ (generate_text cfg env jit).branches) :
    b.model = cfg.model ∨ b.model ∈ fallbacksFor (geminiBaseOf cfg) cfg.model := by
  cases hkey : pyTruthy (optToPy cfg.api_key) with
  | false =>
    simp only [generate_text, hkey, Bool.not_false, if_pos] at hb
    simp at hb
  | true =>
    simp only [generate_text, hkey, Bool.not_true, Bool.false_eq_true, if_false] at hb
    cases hprov : cfg.provider with
    | openai =>
      rw [hprov] at hb
      exact Or.inl (openai_compatible_generate_branches_model _ cfg.model cfg.wire_api
        true false env jit 0 b hb)
    | gemini =>
      rw [hprov] at hb
      by_cases hg : is_google_genai_base
          (pyOrStr cfg.base_url (lit ("https://generativelanguage.googleapis.com"))) = true
      · rw [if_pos hg] at hb
        simp only [List.mem_singleton] at hb
        exact Or.inl (by rw [hb])
      · rw [if_neg hg] at hb
        exact geminiProxyCascade_branches_model _ cfg.model _ _ env jit b hb

theorem fallbacksFor_ne_model (base model m : Str) (hm : m ∈ fallbacksFor base model) :
    lowerB (stripWs m) ≠ lowerB (stripWs model) := by
  unfold fallbacksFor at hm
  have hmem : m ∈ fallback_models.filter
      (fun x => lowerB (stripWs x) != lowerB (stripWs model)) := by
    by_cases hp : is_packy_base base = true
    · rw [if_pos hp] at hm
      exact List.take_subset _ _ hm
    · rwa [if_neg hp] at hm
  have := (List.mem_filter.1 hmem).2
  simpa [bne_iff_ne] using this

/-- C10: the fallback-model cascade never re-attempts the originally
configured model: the fallback list is filtered case-insensitively (after
stripping) against cfg.model before any cascade runs; every executor
invocation the facade performs (on either the Gemini-native or the
OpenAI-compatible cascade) uses either cfg.model itself or a member of
that filtered list, which differs from cfg.model; and for the PackyAPI
high-risk gateway the filtered list is additionally truncated to at most
4 entries. -/
theorem fallback_cascade_never_reattempts_model (cfg : LLMConfig) (env : Env) (jit : Jit) :
    (∀ m ∈ fallbacksFor (geminiBaseOf cfg) cfg.model,
        lowerB (stripWs m) ≠ lowerB (stripWs cfg.model)) ∧
    (is_packy_base (geminiBaseOf cfg) = true →
        (fallbacksFor (geminiBaseOf cfg) cfg.model).length ≤ 4) ∧
    (∀ b ∈ (generate_text cfg env jit).branches,
        b.model = cfg.model ∨
          (b.model ∈ fallbacksFor (geminiBaseOf cfg) cfg.model ∧ b.model ≠ cfg.model)) := by
  refine ⟨fun m hm => fallbacksFor_ne_model _ _ m hm, ?_, ?_⟩
  · intro hp
    unfold fallbacksFor
    rw [if_pos hp]
    exact List.length_take_le 4 _
  · intro b hb
    rcases generate_text_branches_model cfg env jit b hb with h | h
    · exact Or.inl h
    · refine Or.inr ⟨h, fun he => ?_⟩
      exact fallbacksFor_ne_model _ _ _ h (by rw [he])

/-- Witness for C10 at the PackyAPI Gemini config: a concrete fallback
model differs from the configured one, the truncation bound holds, and
the first executor invocation of a concrete run uses an allowed model. -/
theorem fallback_cascade_never_reattempts_model_witness :
    lowerB (stripWs (lit ("gemini-3-pro-preview"))) ≠ lowerB (stripWs cfgGeminiPacky.model) ∧
    (fallbacksFor (geminiBaseOf cfgGeminiPacky) cfgGeminiPacky.model).length ≤ 4 ∧
    ((generate_text cfgGeminiPacky env404 jitZero).branches.headI.model = cfgGeminiPacky.model ∨
      ((generate_text cfgGeminiPacky env404 jitZero).branches.headI.model ∈
          fallbacksFor (geminiBaseOf cfgGeminiPacky) cfgGeminiPacky.model ∧
        (generate_text cfgGeminiPacky env404 jitZero).branches.headI.model ≠
          cfgGeminiPacky.model)) :=
  ⟨(fallback_cascade_never_reattempts_model cfgGeminiPacky env404 jitZero).1
      (lit ("gemini-3-pro-preview")) (by decide),
   (fallback_cascade_never_reattempts_model cfgGeminiPacky env404 jitZero).2.1 (by decide),
   (fallback_cascade_never_reattempts_model cfgGeminiPacky env404 jitZero).2.2
      (generate_text cfgGeminiPacky env404 jitZero).branches.headI (by decide)⟩

/-! ## Executor lemmas: candidate level -/

theorem openaiCandAct_success_nonempty (ff : Bool) (parser : PyVal → Except Str Str)
    (o : NetOutcome) (t : Str) (h : openaiCandAct ff parser o = .success t) :
    (stripWs t).isEmpty = false := by
  cases o with
  | timeout => simp [openaiCandAct] at h
  | netError e => simp [openaiCandAct] at h
  | resp r =>
    simp only [openaiCandAct] at h
    repeat' split at h
    all_goals simp_all

theorem geminiCandAct_success_nonempty (o : NetOutcome) (t : Str)
    (h : geminiCandAct o = .success t) : (stripWs t).isEmpty = false := by
  cases o with
  | timeout => simp [geminiCandAct] at h
  | netError e => simp [geminiCandAct] at h
  | resp r =>
    simp only [geminiCandAct] at h
    repeat' split at h
    all_goals simp_all

theorem runCandsO_success_nonempty (ff : Bool) (parser : PyVal → Except Str Str) :
    ∀ (outs : List NetOutcome) (st : ErrSt) (ht : Bool) (t : Str),
      (runCandsO ff parser outs st ht).1 = .rsuccess t → (stripWs t).isEmpty = false := by
  intro outs
  induction outs with
  | nil => intro st ht t h; simp [runCandsO] at h
  | cons o rest ih =>
    intro st ht t h
    simp only [runCandsO] at h
    cases ha : openaiCandAct ff parser o with
    | success t2 =>
      simp only [ha] at h
      injection h with h1
      exact h1 ▸ openaiCandAct_success_nonempty ff parser o t2 ha
    | fatal m => simp only [ha] at h; simp at h
    | record m tr =>
      simp only [ha] at h
      exact ih (record_err st m) (ht || tr) t h

theorem runCandsG_success_nonempty :
    ∀ (outs : List NetOutcome) (st : Option Str) (ht : Bool) (t : Str),
      (runCandsG outs st ht).1 = .rsuccess t → (stripWs t).isEmpty = false := by
  intro outs
  induction outs with
  | nil => intro st ht t h; simp [runCandsG] at h
  | cons o rest ih =>
    intro st ht t h
    simp only [runCandsG] at h
    cases ha : geminiCandAct o with
    | success t2 =>
      simp only [ha] at h
      injection h with h1
      exact h1 ▸ geminiCandAct_success_nonempty o t2 ha
    | fatal m => simp only [ha] at h; simp at h
    | record m tr =>
      simp only [ha] at h
      exact ih (some m) (ht || tr) t h

/-! ## C1: non-empty success propagation -/

theorem ocGo_success_nonempty (ff : Bool) (parser : PyVal → Except Str Str) (n : Nat)
    (env : Nat → Nat → NetOutcome) (jit : Nat → ℚ) :
    ∀ (atts : List Nat) (st : ErrSt) (t : Str),
      (ocGo ff parser n env jit atts st).1 = .ok t → (stripWs t).isEmpty = false := by
  intro atts
  induction atts with
  | nil => intro st t h; simp [ocGo] at h
  | cons a rest ih =>
    intro st t h
    simp only [ocGo] at h
    cases hr : (runCandsO ff parser ((List.range n).map (env a)) st false).1 with
    | rsuccess t2 =>
      simp only [hr] at h
      injection h with h1
      exact h1 ▸ runCandsO_success_nonempty ff parser _ st false t2 hr
    | rfatal m => simp only [hr] at h; simp at h
    | rexhausted =>
      simp only [hr] at h
      by_cases hc : (!rest.isEmpty &&
          (runCandsO ff parser ((List.range n).map (env a)) st false).2.2.1) = true
      · rw [if_pos hc] at h
        exact ih _ t h
      · rw [if_neg hc] at h
        simp at h

theorem gemGo_success_nonempty (n : Nat) (env : Nat → Nat → NetOutcome) (jit : Nat → ℚ) :
    ∀ (atts : List Nat) (st : Option Str) (t : Str),
      (gemGo n env jit atts st).1 = .ok t → (stripWs t).isEmpty = false := by
  intro atts
  induction atts with
  | nil => intro st t h; simp [gemGo] at h
  | cons a rest ih =>
    intro st t h
    simp only [gemGo] at h
    cases hr : (runCandsG ((List.range n).map (env a)) st false).1 with
    | rsuccess t2 =>
      simp only [hr] at h
      injection h with h1
      exact h1 ▸ runCandsG_success_nonempty _ st false t2 hr
    | rfatal m => simp only [hr] at h; simp at h
    | rexhausted =>
      simp only [hr] at h
      by_cases hc : (!rest.isEmpty &&
          (runCandsG ((List.range n).map (env a)) st false).2.2.1) = true
      · rw [if_pos hc] at h
        exact ih _ t h
      · rw [if_neg hc] at h
        simp at h

theorem openai_compatible_request_success_nonempty (base path : Str)
    (parser : PyVal → Except Str Str) (ff : Bool) (env : Nat → Nat → NetOutcome)
    (jit : Nat → ℚ) (t : Str)
    (h : (openai_compatible_request base path parser ff env jit).1 = .ok t) :
    (stripWs t).isEmpty = false :=
  ocGo_success_nonempty ff parser _ env jit [1, 2, 3] {} t h

theorem gemini_generate_v1beta_success_nonempty (base model : Str)
    (env : Nat → Nat → NetOutcome) (jit : Nat → ℚ) (t : Str)
    (h : (gemini_generate_v1beta base model env jit).1 = .ok t) :
    (stripWs t).isEmpty = false :=
  gemGo_success_nonempty _ env jit [1, 2, 3] Option.none t h

theorem runKind_success_nonempty (base model : Str) (ff : Bool) (kind : WireAPIT) (env : Env)
    (jit : Jit) (k : Nat) (t : Str) (h : (runKind base model ff kind env jit k).1 = .ok t) :
    (stripWs t).isEmpty = false := by
  cases kind with
  | chat => exact openai_compatible_request_success_nonempty _ _ _ ff (env k) (jit k) t h
  | responsesW => exact openai_compatible_request_success_nonempty _ _ _ ff (env k) (jit k) t h

theorem ocgLoop_success_nonempty (base model : Str) (ff : Bool) (env : Env) (jit : Jit) :
    ∀ (kinds : List WireAPIT) (k : Nat) (errs : List Str) (brs : List Branch) (t : Str),
      (ocgLoop base model ff env jit kinds k errs brs).1 = .ok t →
        (stripWs t).isEmpty = false := by
  intro kinds
  induction kinds with
  | nil =>
    intro k errs brs t h
    cases errs <;> simp [ocgLoop] at h
  | cons kind rest ih =>
    intro k errs brs t h
    simp only [ocgLoop] at h
    cases hr : (runKind base model ff kind env jit k).1 with
    | ok t2 =>
      simp only [hr] at h
      injection h with h1
      exact h1 ▸ runKind_success_nonempty base model ff kind env jit k t2 hr
    | error e =>
      simp only [hr] at h
      exact ih _ _ _ t h

theorem openai_compatible_generate_success_nonempty (base model : Str) (prefer : WireAPIT)
    (ar ff : Bool) (env : Env) (jit : Jit) (k : Nat) (t : Str)
    (h : (openai_compatible_generate base model prefer ar ff env jit k).1 = .ok t) :
    (stripWs t).isEmpty = false :=
  ocgLoop_success_nonempty base model ff env jit _ k [] [] t h

theorem ocwfLoop_success_nonempty (base : Str) (env : Env) (jit : Jit) :
    ∀ (fbs : List Str) (best : Str) (k : Nat) (brs : List Branch) (t : Str),
      (ocwfLoop base env jit fbs best k brs).1 = .ok t → (stripWs t).isEmpty = false := by
  intro fbs
  induction fbs with
  | nil => intro best k brs t h; simp [ocwfLoop] at h
  | cons fb rest ih =>
    intro best k brs t h
    simp only [ocwfLoop] at h
    cases hr : (openaiChatCall base fb env jit k).1 with
    | ok t2 =>
      simp only [hr] at h
      injection h with h1
      exact h1 ▸ openai_compatible_generate_success_nonempty base fb .chat _ _ env jit k t2 hr
    | error efb =>
      simp only [hr] at h
      exact ih _ _ _ t h

theorem gvwfLoop_success_nonempty (base : Str) (env : Env) (jit : Jit) :
    ∀ (fbs : List Str) (best : Str) (k : Nat) (brs : List Branch) (t : Str),
      (gvwfLoop base env jit fbs best k brs).1 = .ok t → (stripWs t).isEmpty = false := by
  intro fbs
  induction fbs with
  | nil => intro best k brs t h; simp [gvwfLoop] at h
  | cons fb rest ih =>
    intro best k brs t h
    simp only [gvwfLoop] at h
    cases hr : (geminiCall base fb env jit k).1 with
    | ok t2 =>
      simp only [hr] at h
      injection h with h1
      refine h1 ▸ gemini_generate_v1beta_success_nonempty base fb (env k) (jit k) t2 ?_
      exact hr
    | error efb =>
      simp only [hr] at h
      exact ih _ _ _ t h

theorem openai_chat_with_fallbacks_success_nonempty (base cfgModel : Str)
    (fallbacks : List Str) (env : Env) (jit : Jit) (k : Nat) (t : Str)
    (h : (openai_chat_with_fallbacks base cfgModel fallbacks env jit k).1 = .ok t) :
    (stripWs t).isEmpty = false := by
  simp only [openai_chat_with_fallbacks] at h
  cases hr : (openaiChatCall base cfgModel env jit k).1 with
  | ok t2 =>
    simp only [hr] at h
    injection h with h1
    exact h1 ▸ openai_compatible_generate_success_nonempty base cfgModel .chat _ _ env jit k t2 hr
  | error e =>
    simp only [hr] at h
    by_cases hc : (looks_like_model_unavailable e || isPrefixB (lit ("empty_completion")) e ||
        openaiTransientRe e) = true
    · rw [if_pos hc] at h
      exact ocwfLoop_success_nonempty base env jit _ _ _ _ t h
    · rw [if_neg hc] at h
      simp at h

theorem gemini_v1beta_with_fallbacks_success_nonempty (base cfgModel : Str)
    (fallbacks : List Str) (env : Env) (jit : Jit) (k : Nat) (t : Str)
    (h : (gemini_v1beta_with_fallbacks base cfgModel fallbacks env jit k).1 = .ok t) :
    (stripWs t).isEmpty = false := by
  simp only [gemini_v1beta_with_fallbacks] at h
  cases hr : (geminiCall base cfgModel env jit k).1 with
  | ok t2 =>
    simp only [hr] at h
    injection h with h1
    exact h1 ▸ gemini_generate_v1beta_success_nonempty base cfgModel (env k) (jit k) t2 hr
  | error e =>
    simp only [hr] at h
    by_cases hc : (looks_like_model_unavailable e || isPrefixB (lit ("empty_completion")) e ||
        geminiTransientRe e) = true
    · rw [if_pos hc] at h
      exact gvwfLoop_success_nonempty base env jit _ _ _ _ t h
    · rw [if_neg hc] at h
      simp at h

theorem geminiProxyCascade_success_nonempty (base model : Str) (fallbacks : List Str)
    (pref : Bool) (env : Env) (jit : Jit) (t : Str)
    (h : (geminiProxyCascade base model fallbacks pref env jit).res = .ok t) :
    (stripWs t).isEmpty = false := by
  simp only [geminiProxyCascade] at h
  cases pref with
  | true =>
    simp only [reduceIte] at h
    cases hr1 : (openai_chat_with_fallbacks base model fallbacks env jit 0).1 with
    | ok t2 =>
      simp only [hr1] at h
      injection h with h1
      exact h1 ▸ openai_chat_with_fallbacks_success_nonempty base model fallbacks env jit 0 t2 hr1
    | error e1 =>
      simp only [hr1] at h
      cases hr2 : (gemini_v1beta_with_fallbacks base model fallbacks env jit
          (openai_chat_with_fallbacks base model fallbacks env jit 0).2.2).1 with
      | ok t2 =>
        simp only [hr2] at h
        injection h with h1
        exact h1 ▸ gemini_v1beta_with_fallbacks_success_nonempty base model fallbacks env jit _ t2 hr2
      | error e2 =>
        simp only [hr2] at h
        simp at h
  | false =>
    simp only [Bool.false_eq_true, if_false] at h
    cases hr1 : (gemini_v1beta_with_fallbacks base model fallbacks env jit 0).1 with
    | ok t2 =>
      simp only [hr1] at h
      injection h with h1
      exact h1 ▸ gemini_v1beta_with_fallbacks_success_nonempty base model fallbacks env jit 0 t2 hr1
    | error e1 =>
      simp only [hr1] at h
      cases hr2 : (openai_chat_with_fallbacks base model fallbacks env jit
          (gemini_v1beta_with_fallbacks base model fallbacks env jit 0).2.2).1 with
      | ok t2 =>
        simp only [hr2] at h
        injection h with h1
        exact h1 ▸ openai_chat_with_fallbacks_success_nonempty base model fallbacks env jit _ t2 hr2
      | error e2 =>
        simp only [hr2] at h
        simp at h

/-- C1: for every call, generate_text either returns a text that is
non-empty after stripping whitespace, or fails with exactly one LLMError
tag (the Except.error case carries one tag string by construction); it
never returns an empty or whitespace-only string. -/
theorem generate_text_nonempty_or_error (cfg : LLMConfig) (env : Env) (jit : Jit) :
    (∃ t, (generate_text cfg env jit).res = .ok t ∧ (stripWs t).isEmpty = false) ∨
    (∃ e, (generate_text cfg env jit).res = .error e) := by
  cases hres : (generate_text cfg env jit).res with
  | error e => exact Or.inr ⟨e, rfl⟩
  | ok t =>
    refine Or.inl ⟨t, rfl, ?_⟩
    revert hres
    cases hkey : pyTruthy (optToPy cfg.api_key) with
    | false =>
      intro hres
      simp [generate_text, hkey] at hres
    | true =>
      simp only [generate_text, hkey, Bool.not_true, Bool.false_eq_true, if_false]
      cases hprov : cfg.provider with
      | openai =>
        intro hres
        exact openai_compatible_generate_success_nonempty _ cfg.model cfg.wire_api
          true false env jit 0 t hres
      | gemini =>
        by_cases hg : is_google_genai_base
            (pyOrStr cfg.base_url (lit ("https://generativelanguage.googleapis.com"))) = true
        · rw [if_pos hg]
          intro hres
          exact gemini_generate_v1beta_success_nonempty _ cfg.model (env 0) (jit 0) t hres
        · rw [if_neg hg]
          intro hres
          exact geminiProxyCascade_success_nonempty _ cfg.model _ _ env jit t hres

/-! ## C5 lemmas: round/backoff structure of the attempt loop -/

theorem runCandsO_flag (ff : Bool) (parser : PyVal → Except Str Str) :
    ∀ (outs : List NetOutcome) (st : ErrSt) (ht : Bool),
      (runCandsO ff parser outs st ht).2.2.1 =
        (ht || (runCandsO ff parser outs st ht).2.2.2.any actTransient) := by
  intro outs
  induction outs with
  | nil => intro st ht; simp [runCandsO]
  | cons o rest ih =>
    intro st ht
    simp only [runCandsO]
    cases ha : openaiCandAct ff parser o with
    | success t => simp [actTransient]
    | fatal m => simp [actTransient]
    | record m tr =>
      simp only [List.any_cons, actTransient]
      rw [ih (record_err st m) (ht || tr), Bool.or_assoc]

theorem runCandsG_flag :
    ∀ (outs : List NetOutcome) (st : Option Str) (ht : Bool),
      (runCandsG outs st ht).2.2.1 =
        (ht || (runCandsG outs st ht).2.2.2.any actTransient) := by
  intro outs
  induction outs with
  | nil => intro st ht; simp [runCandsG]
  | cons o rest ih =>
    intro st ht
    simp only [runCandsG]
    cases ha : geminiCandAct o with
    | success t => simp [actTransient]
    | fatal m => simp [actTransient]
    | record m tr =>
      simp only [List.any_cons, actTransient]
      rw [ih (some m) (ht || tr), Bool.or_assoc]

theorem ocGo_ne_nil (ff : Bool) (parser : PyVal → Except Str Str) (n : Nat)
    (env : Nat → Nat → NetOutcome) (jit : Nat → ℚ) (a : Nat) (rest : List Nat) (st : ErrSt) :
    (ocGo ff parser n env jit (a :: rest) st).2 ≠ [] := by
  simp only [ocGo]
  cases hr : (runCandsO ff parser ((List.range n).map (env a)) st false).1 with
  | rsuccess t => simp [hr]
  | rfatal m => simp [hr]
  | rexhausted =>
    simp only [hr]
    by_cases hc : (!rest.isEmpty &&
        (runCandsO ff parser ((List.range n).map (env a)) st false).2.2.1) = true
    · rw [if_pos hc]; simp
    · rw [if_neg hc]; simp

theorem ocGo_round_structure (ff : Bool) (parser : PyVal → Except Str Str) (n : Nat)
    (env : Nat → Nat → NetOutcome) (jit : Nat → ℚ) :
    ∀ (atts : List Nat) (st : ErrSt),
      (ocGo ff parser n env jit atts st).2.length ≤ atts.length ∧
      (∀ r ∈ (ocGo ff parser n env jit atts st).2,
        r.idx ∈ atts ∧
        r.hadTransient = r.acts.any actTransient ∧
        (∀ amt, r.sleptAfter = some amt →
          r.hadTransient = true ∧ amt = backoffAmt r.idx (jit r.idx))) ∧
      (∀ r ∈ (ocGo ff parser n env jit atts st).2.dropLast, r.sleptAfter.isSome = true) ∧
      (∀ r, (ocGo ff parser n env jit atts st).2.getLast? = some r →
        r.sleptAfter = Option.none) := by
  intro atts
  induction atts with
  | nil =>
    intro st
    refine ⟨by simp [ocGo], ?_, ?_, ?_⟩
    · intro r hr; simp [ocGo] at hr
    · intro r hr; simp [ocGo] at hr
    · intro r hr; simp [ocGo] at hr
  | cons a rest ih =>
    intro st
    have hflag := runCandsO_flag ff parser ((List.range n).map (env a)) st false
    rw [Bool.false_or] at hflag
    simp only [ocGo]
    cases hrun : (runCandsO ff parser ((List.range n).map (env a)) st false).1 with
    | rsuccess t =>
      simp only [hrun]
      refine ⟨by simp, ?_, by simp, ?_⟩
      · intro r hr
        simp only [List.mem_singleton] at hr
        subst hr
        exact ⟨List.mem_cons_self a rest, hflag, fun amt hamt => by simp at hamt⟩
      · intro r hr
        simp only [List.getLast?_singleton, Option.some.injEq] at hr
        subst hr
        rfl
    | rfatal m =>
      simp only [hrun]
      refine ⟨by simp, ?_, by simp, ?_⟩
      · intro r hr
        simp only [List.mem_singleton] at hr
        subst hr
        exact ⟨List.mem_cons_self a rest, hflag, fun amt hamt => by simp at hamt⟩
      · intro r hr
        simp only [List.getLast?_singleton, Option.some.injEq] at hr
        subst hr
        rfl
    | rexhausted =>
      simp only [hrun]
      by_cases hc : (!rest.isEmpty &&
          (runCandsO ff parser ((List.range n).map (env a)) st false).2.2.1) = true
      · rw [if_pos hc]
        rw [Bool.and_eq_true] at hc
        obtain ⟨hrest, htr⟩ := hc
        obtain ⟨b, rest', rfl⟩ : ∃ b rest', rest = b :: rest' := by
          cases rest with
          | nil => simp at hrest
          | cons b rest' => exact ⟨b, rest', rfl⟩
        have hne := ocGo_ne_nil ff parser n env jit b rest'
          (runCandsO ff parser ((List.range n).map (env a)) st false).2.1
        obtain ⟨c, cs, hcs⟩ : ∃ c cs,
            (ocGo ff parser n env jit (b :: rest')
              (runCandsO ff parser ((List.range n).map (env a)) st false).2.1).2 = c :: cs := by
          cases hx : (ocGo ff parser n env jit (b :: rest')
              (runCandsO ff parser ((List.range n).map (env a)) st false).2.1).2 with
          | nil => exact absurd hx hne
          | cons c cs => exact ⟨c, cs, rfl⟩
        have ihx := ih (runCandsO ff parser ((List.range n).map (env a)) st false).2.1
        refine ⟨?_, ?_, ?_, ?_⟩
        · simpa using ihx.1
        · intro r hr
          rcases List.mem_cons.1 hr with hr | hr
          · subst hr
            refine ⟨List.mem_cons_self a _, hflag, fun amt hamt => ?_⟩
            refine ⟨htr, ?_⟩
            injection hamt with h1
            exact h1.symm
          · obtain ⟨hidx, hfl, hslept⟩ := ihx.2.1 r hr
            exact ⟨List.mem_cons_of_mem a hidx, hfl, hslept⟩
        · intro r hr
          rw [hcs, List.dropLast_cons₂] at hr
          rcases List.mem_cons.1 hr with hr | hr
          · subst hr; rfl
          · exact ihx.2.2.1 r (by rw [hcs]; exact hr)
        · intro r hr
          rw [hcs, List.getLast?_cons_cons] at hr
          exact ihx.2.2.2 r (by rw [hcs]; exact hr)
      · rw [if_neg hc]
        refine ⟨by simp, ?_, by simp, ?_⟩
        · intro r hr
          simp only [List.mem_singleton] at hr
          subst hr
          exact ⟨List.mem_cons_self a _, hflag, fun amt hamt => by simp at hamt⟩
        · intro r hr
          simp only [List.getLast?_singleton, Option.some.injEq] at hr
          subst hr
          rfl

/-- C5 (corrected): the request executor makes at most 3 attempts (numbered
1..3); a backoff sleep after attempt n has amount
0.8 * 2^(n-1) + jitter(n) * 0.2, which lies in
[0.8 * 2^(n-1), 0.8 * 2^(n-1) + 0.2) whenever the jitter stream stays in
[0, 1); the sleep happens only when the attempt's transient flag is set,
and that flag equals "at least one POST of the attempt was classified
transient" — not, as the claim stated, "every candidate failed
transiently"; every round except the last is followed by such a sleep, and
the final round never is (so the executor stops early as soon as no
candidate looked transient). -/
theorem openai_compatible_request_retry_discipline (base path : Str)
    (parser : PyVal → Except Str Str) (ff : Bool) (env : Nat → Nat → NetOutcome)
    (jit : Nat → ℚ) (hj : ∀ a2, 0 ≤ jit a2 ∧ jit a2 < 1) :
    (openai_compatible_request base path parser ff env jit).2.length ≤ 3 ∧
    (∀ r ∈ (openai_compatible_request base path parser ff env jit).2,
      1 ≤ r.idx ∧ r.idx ≤ 3 ∧ r.hadTransient = r.acts.any actTransient ∧
      (∀ amt, r.sleptAfter = some amt →
        r.hadTransient = true ∧
        amt = backoffAmt r.idx (jit r.idx) ∧
        4/5 * 2 ^ (r.idx - 1) ≤ amt ∧ amt < 4/5 * 2 ^ (r.idx - 1) + 1/5)) ∧
    (∀ r ∈ (openai_compatible_request base path parser ff env jit).2.dropLast,
      r.sleptAfter.isSome = true) ∧
    (∀ r, (openai_compatible_request base path parser ff env jit).2.getLast? = some r →
      r.sleptAfter = Option.none) := by
  have h := ocGo_round_structure ff parser (build_candidates base path).length env jit
    [1, 2, 3] {}
  refine ⟨by simpa using h.1, ?_, h.2.2.1, h.2.2.2⟩
  intro r hr
  obtain ⟨hidx, hfl, hslept⟩ := h.2.1 r hr
  have hidx3 : r.idx = 1 ∨ r.idx = 2 ∨ r.idx = 3 := by simpa using hidx
  refine ⟨by omega, by omega, hfl, ?_⟩
  intro amt hamt
  obtain ⟨htr, hamt2⟩ := hslept amt hamt
  have hj0 := (hj r.idx).1
  have hj1 := (hj r.idx).2
  have hmul0 : 0 ≤ jit r.idx * (1/5 : ℚ) := by positivity
  have hmul1 : jit r.idx * (1/5 : ℚ) < 1 * (1/5 : ℚ) :=
    mul_lt_mul_of_pos_right hj1 (by norm_num)
  refine ⟨htr, hamt2, ?_, ?_⟩
  · rw [hamt2]
    unfold backoffAmt
    linarith
  · rw [hamt2]
    unfold backoffAmt
    linarith

/-- C5 counterexample: with two candidate URLs where the first answers
HTTP 502 (transient) and the second answers HTTP 404 (not transient), the
executor still sleeps after attempt 1 — refuting "it sleeps only when
every candidate in that attempt failed transiently". -/
theorem openai_compatible_request_sleeps_despite_non_transient_candidate :
    ((openai_compatible_request (lit ("https://host")) (lit ("chat/completions"))
        (fun d => .ok (extract_chat_text d)) false envMixed jitZero1).2.head?.map
      (fun r => (r.idx, r.acts, r.hadTransient, r.sleptAfter.isSome))) =
      some (1, [CandAct.record (lit ("openai_http_502:html_error_page")) true,
        CandAct.record (lit ("openai_http_404")) false], true, true) ∧
    actTransient (.record (lit ("openai_http_404")) false) = false :=
  ⟨by decide, rfl⟩

/-- Witness for (the amended) C5 at a concrete run. -/
theorem openai_compatible_request_retry_discipline_witness :
    (openai_compatible_request (lit ("https://host")) (lit ("chat/completions"))
        (fun d => .ok (extract_chat_text d)) false envMixed jitZero1).2.length ≤ 3 :=
  (openai_compatible_request_retry_discipline (lit ("https://host")) (lit ("chat/completions"))
    (fun d => .ok (extract_chat_text d)) false envMixed jitZero1
    (fun _ => ⟨by norm_num [jitZero1], by norm_num [jitZero1]⟩)).1

/-! ## C4 lemmas: per-status handling inside the executor -/

theorem runCandsO_acts (ff : Bool) (parser : PyVal → Except Str Str) :
    ∀ (outs : List NetOutcome) (st : ErrSt) (ht : Bool),
      (runCandsO ff parser outs st ht).2.2.2.length ≤ outs.length ∧
      (runCandsO ff parser outs st ht).2.2.2 =
        (outs.take (runCandsO ff parser outs st ht).2.2.2.length).map
          (openaiCandAct ff parser) ∧
      ((runCandsO ff parser outs st ht).1 = .rexhausted →
        (runCandsO ff parser outs st ht).2.2.2.length = outs.length) ∧
      (∀ m, CandAct.fatal m ∈ (runCandsO ff parser outs st ht).2.2.2 →
        (runCandsO ff parser outs st ht).1 = .rfatal m ∧
        (runCandsO ff parser outs st ht).2.2.2.getLast? = some (.fatal m)) ∧
      (∀ i (m : Str) (tr : Bool),
        (runCandsO ff parser outs st ht).2.2.2[i]? = some (.record m tr) →
        i + 1 < (runCandsO ff parser outs st ht).2.2.2.length ∨
          (runCandsO ff parser outs st ht).1 = .rexhausted) := by
  intro outs
  induction outs with
  | nil =>
    intro st ht
    refine ⟨by simp [runCandsO], by simp [runCandsO], by simp [runCandsO], ?_, ?_⟩
    · intro m hm; simp [runCandsO] at hm
    · intro i m tr hi; simp [runCandsO] at hi
  | cons o rest ih =>
    intro st ht
    cases ha : openaiCandAct ff parser o with
    | success t =>
      simp only [runCandsO, ha]
      refine ⟨by simp, by simp [ha], by simp, ?_, ?_⟩
      · intro m hm; simp at hm
      · intro i m tr hi
        cases i with
        | zero => simp at hi
        | succ j => simp at hi
    | fatal m0 =>
      simp only [runCandsO, ha]
      refine ⟨by simp, by simp [ha], by simp, ?_, ?_⟩
      · intro m hm
        simp only [List.mem_singleton] at hm
        injection hm.symm with hmm
        subst hmm
        exact ⟨rfl, rfl⟩
      · intro i m tr hi
        cases i with
        | zero => simp at hi
        | succ j => simp at hi
    | record m0 tr0 =>
      obtain ⟨ihLen, ihMap, ihEx, ihFatal, ihRec⟩ := ih (record_err st m0) (ht || tr0)
      refine ⟨?_, ?_, ?_, ?_, ?_⟩
      · simp only [runCandsO, ha]
        simpa using Nat.succ_le_succ ihLen
      · simp only [runCandsO, ha]
        rw [List.length_cons, List.take_succ_cons, List.map_cons, ← ihMap, ha]
      · intro hex
        simp only [runCandsO, ha] at hex ⊢
        have := ihEx hex
        simp only [List.length_cons]
        omega
      · intro m hm
        simp only [runCandsO, ha] at hm ⊢
        rcases List.mem_cons.1 hm with hm | hm
        · exact absurd hm.symm (by simp)
        · obtain ⟨hres, hlast⟩ := ihFatal m hm
          refine ⟨hres, ?_⟩
          have hne : (runCandsO ff parser rest (record_err st m0) (ht || tr0)).2.2.2 ≠ [] := by
            intro hnil
            rw [hnil] at hm
            simp at hm
          cases hx : (runCandsO ff parser rest (record_err st m0) (ht || tr0)).2.2.2 with
          | nil => exact absurd hx hne
          | cons c cs =>
            rw [hx] at hlast
            rw [List.getLast?_cons_cons]
            exact hlast
      · intro i m tr hi
        simp only [runCandsO, ha] at hi ⊢
        cases i with
        | zero =>
          cases hx : (runCandsO ff parser rest (record_err st m0) (ht || tr0)).2.2.2 with
          | nil =>
            right
            cases rest with
            | nil => rfl
            | cons o2 rest2 =>
              exfalso
              revert hx
              cases hb : openaiCandAct ff parser o2 <;> simp [runCandsO, hb]
          | cons c cs =>
            left
            simp [hx]
        | succ j =>
          simp only [List.getElem?_cons_succ] at hi
          rcases ihRec j m tr hi with h | h
          · left
            simp only [List.length_cons]
            omega
          · right
            exact h

theorem ocGo_c4 (ff : Bool) (parser : PyVal → Except Str Str) (n : Nat)
    (env : Nat → Nat → NetOutcome) (jit : Nat → ℚ) :
    ∀ (atts : List Nat) (st : ErrSt),
      (∀ r ∈ (ocGo ff parser n env jit atts st).2,
        r.acts.length ≤ n ∧
        r.acts = (((List.range n).map (env r.idx)).take r.acts.length).map
          (openaiCandAct ff parser)) ∧
      (∀ r ∈ (ocGo ff parser n env jit atts st).2, ∀ m, CandAct.fatal m ∈ r.acts →
        (ocGo ff parser n env jit atts st).1 = .error m ∧
        (ocGo ff parser n env jit atts st).2.getLast? = some r ∧
        r.acts.getLast? = some (.fatal m)) ∧
      (∀ r ∈ (ocGo ff parser n env jit atts st).2, ∀ i (m : Str) (tr : Bool),
        r.acts[i]? = some (.record m tr) →
        i + 1 < r.acts.length ∨ r.acts.length = n) := by
  intro atts
  induction atts with
  | nil =>
    intro st
    refine ⟨?_, ?_, ?_⟩ <;> intro r hr <;> simp [ocGo] at hr
  | cons a rest ih =>
    intro st
    obtain ⟨hLen, hMap, hEx, hFatal, hRec⟩ :=
      runCandsO_acts ff parser ((List.range n).map (env a)) st false
    have houts : ((List.range n).map (env a)).length = n := by simp
    simp only [ocGo]
    cases hrun : (runCandsO ff parser ((List.range n).map (env a)) st false).1 with
    | rsuccess t =>
      simp only [hrun]
      refine ⟨?_, ?_, ?_⟩
      · intro r hr
        simp only [List.mem_singleton] at hr
        subst hr
        exact ⟨hLen.trans (le_of_eq houts), hMap⟩
      · intro r hr m hm
        simp only [List.mem_singleton] at hr
        subst hr
        have := (hFatal m hm).1
        rw [hrun] at this
        cases this
      · intro r hr i m tr hi
        simp only [List.mem_singleton] at hr
        subst hr
        rcases hRec i m tr hi with h | h
        · exact Or.inl h
        · rw [hrun] at h; cases h
    | rfatal m0 =>
      simp only [hrun]
      refine ⟨?_, ?_, ?_⟩
      · intro r hr
        simp only [List.mem_singleton] at hr
        subst hr
        exact ⟨hLen.trans (le_of_eq houts), hMap⟩
      · intro r hr m hm
        simp only [List.mem_singleton] at hr
        subst hr
        obtain ⟨hres, hlast⟩ := hFatal m hm
        rw [hrun] at hres
        injection hres with hres
        subst hres
        exact ⟨rfl, rfl, hlast⟩
      · intro r hr i m tr hi
        simp only [List.mem_singleton] at hr
        subst hr
        rcases hRec i m tr hi with h | h
        · exact Or.inl h
        · rw [hrun] at h; cases h
    | rexhausted =>
      simp only [hrun]
      by_cases hc : (!rest.isEmpty &&
          (runCandsO ff parser ((List.range n).map (env a)) st false).2.2.1) = true
      · rw [if_pos hc]
        have hrest : rest ≠ [] := by
          rw [Bool.and_eq_true] at hc
          simpa using hc.1
        obtain ⟨b, rest', rfl⟩ : ∃ b rest', rest = b :: rest' := by
          cases rest with
          | nil => exact absurd rfl hrest
          | cons b rest' => exact ⟨b, rest', rfl⟩
        have hne := ocGo_ne_nil ff parser n env jit b rest'
          (runCandsO ff parser ((List.range n).map (env a)) st false).2.1
        obtain ⟨c, cs, hcs⟩ : ∃ c cs,
            (ocGo ff parser n env jit (b :: rest')
              (runCandsO ff parser ((List.range n).map (env a)) st false).2.1).2 = c :: cs := by
          cases hx : (ocGo ff parser n env jit (b :: rest')
              (runCandsO ff parser ((List.range n).map (env a)) st false).2.1).2 with
          | nil => exact absurd hx hne
          | cons c cs => exact ⟨c, cs, rfl⟩
        have ihx := ih (runCandsO ff parser ((List.range n).map (env a)) st false).2.1
        refine ⟨?_, ?_, ?_⟩
        · intro r hr
          rcases List.mem_cons.1 hr with hr | hr
          · subst hr
            exact ⟨hLen.trans (le_of_eq houts), hMap⟩
          · exact ihx.1 r hr
        · intro r hr m hm
          rcases List.mem_cons.1 hr with hr | hr
          · subst hr
            have := (hFatal m hm).1
            rw [hrun] at this
            cases this
          · obtain ⟨hres, hlastR, hlastA⟩ := ihx.2.1 r hr m hm
            refine ⟨hres, ?_, hlastA⟩
            rw [hcs] at hlastR ⊢
            rw [List.getLast?_cons_cons]
            exact hlastR
        · intro r hr i m tr hi
          rcases List.mem_cons.1 hr with hr | hr
          · subst hr
            rcases hRec i m tr hi with h | h
            · exact Or.inl h
            · exact Or.inr (by rw [hEx h]; exact houts)
          · exact ihx.2.2 r hr i m tr hi
      · rw [if_neg hc]
        refine ⟨?_, ?_, ?_⟩
        · intro r hr
          simp only [List.mem_singleton] at hr
          subst hr
          exact ⟨hLen.trans (le_of_eq houts), hMap⟩
        · intro r hr m hm
          simp only [List.mem_singleton] at hr
          subst hr
          have := (hFatal m hm).1
          rw [hrun] at this
          cases this
        · intro r hr i m tr hi
          simp only [List.mem_singleton] at hr
          subst hr
          rcases hRec i m tr hi with h | h
          · exact Or.inl h
          · exact Or.inr (by rw [hEx h]; exact houts)
